import Mathlib

/-!
Verification of the snapsentry policy-window evaluator, metadata codec,
retry executor and orchestration helpers.

The Go sources are shallowly embedded: instants (`time.Time`) are modelled
as `Int` seconds relative to the Unix epoch, durations as `Int` seconds,
and `map[string]string` metadata as association lists.  The Go standard
library's proleptic-Gregorian conversions used by `time.Date`,
`Time.Date()`, `Time.Day()` and `Time.AddDate` are modelled by the exact
civil-calendar algorithms (`daysFromCivil` / `civilFromDays`); timezones
(`*time.Location`) are modelled as a pair of offset functions, one for
reading an absolute instant and one used when resolving a wall-clock time
in `time.Date`.  A fixed-offset location (such as UTC) uses the same
constant for both.
-/

/-- Leap-year predicate of the proleptic Gregorian calendar, as used by
Go's `time` package (`isLeap`). -/
def isLeapYear (y : Int) : Bool := (y % 4 == 0 && y % 100 != 0) || y % 400 == 0

/-- Number of days in a month of the proleptic Gregorian calendar
(Go `daysIn`). -/
def daysInMonth (y m : Int) : Int :=
  if m = 2 then (if isLeapYear y then 29 else 28)
  else if m = 4 ∨ m = 6 ∨ m = 9 ∨ m = 11 then 30
  else 31

/-- Year-of-era extraction step of the epoch-day to civil-date conversion:
given a day offset `doe` inside a 400-year era, recover the year of era. -/
def yoeOfDoe (doe : Int) : Int := (doe - doe / 1460 + doe / 36524 - doe / 146096) / 365

/-- Day offset inside a 400-year era of day `doy` of the March-based year
of era `yoe`. -/
def doeOfYoe (yoe doy : Int) : Int := yoe * 365 + yoe / 4 - yoe / 100 + doy

/-- Days since the Unix epoch (1970-01-01) of the civil date `(y, m, d)`,
with month in 1..12.  The day `d` may lie outside the month; it enters the
count linearly, exactly as in Go's `time.Date`, where an out-of-range day
simply overflows into adjacent months.  Divisions are by positive
constants, for which `Int` division is floor division. -/
def daysFromCivil (y m d : Int) : Int :=
  let yShift := y - (if m ≤ 2 then 1 else 0)
  let era := yShift / 400
  let yoe := yShift - era * 400
  let mp := if m > 2 then m - 3 else m + 9
  let doy := (153 * mp + 2) / 5 + d - 1
  era * 146097 + doeOfYoe yoe doy - 719468

/-- Calendar date with unconstrained integer fields. -/
structure CivilDate where
  year : Int
  month : Int
  day : Int
deriving DecidableEq, Repr

/-- Civil date of the day `z` counted from the Unix epoch; inverse of
`daysFromCivil` (this is the conversion performed by Go's `absDate` when a
`time.Time` is asked for its year, month and day). -/
def civilFromDays (z : Int) : CivilDate :=
  let z2 := z + 719468
  let era := z2 / 146097
  let doe := z2 - era * 146097
  let yoe := yoeOfDoe doe
  let doy := doe - (365 * yoe + yoe / 4 - yoe / 100)
  let mp := (5 * doy + 2) / 153
  let d := doy - (153 * mp + 2) / 5 + 1
  let m := if mp < 10 then mp + 3 else mp - 9
  ⟨yoe + era * 400 + (if m ≤ 2 then 1 else 0), m, d⟩

/-- Model of a Go `*time.Location`: `offsetAt t` is the UTC offset in
seconds in effect at the absolute instant `t` (used when reading the civil
fields of a `time.Time`), and `lookupWall w` is the offset chosen by
`time.Date` when resolving the naive wall-clock second count `w` to an
absolute instant.  A real zone satisfies the obvious coherence between the
two; a fixed-offset zone uses the same constant for both. -/
structure GoLocation where
  offsetAt : Int → Int
  lookupWall : Int → Int

/-- Location with a constant UTC offset of `c` seconds. -/
def fixedLoc (c : Int) : GoLocation := ⟨fun _ => c, fun _ => c⟩

/-- The UTC location. -/
def utcLoc : GoLocation := fixedLoc 0

/-- Model of Go's `norm(hi, lo, base)` from `time.go`: normalises `lo`
into `[0, base)`, carrying into `hi`.  The Go original uses truncated
division on non-negative operands, which coincides with the `Int`
division used here. -/
def goNorm (hi lo base : Int) : Int × Int :=
  let p := if lo < 0 then (hi - ((-lo - 1) / base + 1), lo + ((-lo - 1) / base + 1) * base)
           else (hi, lo)
  if p.2 ≥ base then (p.1 + p.2 / base, p.2 - p.2 / base * base) else p

/-- Normalised (year, month) pair of Go's `time.Date`: month is brought
into 1..12, overflowing into the year. -/
def normYM (y m : Int) : Int × Int :=
  let p := goNorm y (m - 1) 12
  (p.1, p.2 + 1)

/-- Model of Go's `time.Date(year, month, day, hour, minute, sec, 0, loc)`
returning the absolute instant in seconds.  Seconds, minutes and hours are
normalised carrying into the day, the month is normalised carrying into
the year, the (possibly out-of-range) day enters the epoch-day count
linearly, and the zone offset for the resulting wall-clock time is
subtracted. -/
def timeDate (loc : GoLocation) (year month day hour minute sec : Int) : Int :=
  let pm := goNorm minute sec 60
  let ph := goNorm hour pm.1 60
  let pd := goNorm day ph.1 24
  let ym := normYM year month
  let naive := daysFromCivil ym.1 ym.2 pd.1 * 86400 + pd.2 * 3600 + ph.2 * 60 + pm.2
  naive - loc.lookupWall naive

/-- Civil date and clock fields of an absolute instant, read in a
location (Go `Time.Date()` / `Time.Clock()` composition). -/
structure CivilDateTime where
  year : Int
  month : Int
  day : Int
  hour : Int
  minute : Int
  second : Int
deriving DecidableEq, Repr

/-- Read the civil fields of the absolute instant `t` in location `loc`. -/
def absGetCivil (loc : GoLocation) (t : Int) : CivilDateTime :=
  let lt := t + loc.offsetAt t
  let cd := civilFromDays (lt / 86400)
  let rest := lt % 86400
  ⟨cd.year, cd.month, cd.day, rest / 3600, rest % 3600 / 60, rest % 60⟩

/-- Calendar day of the instant `t` in location `loc` (Go `Time.Day()`). -/
def timeDay (loc : GoLocation) (t : Int) : Int := (absGetCivil loc t).day

/-- Hour of the instant `t` in location `loc` (Go `Time.Hour()`). -/
def timeHour (loc : GoLocation) (t : Int) : Int := (absGetCivil loc t).hour

/-- Model of Go's `Time.AddDate(years, months, days)`: read the civil
fields, shift them, and resolve through `time.Date` again. -/
def addDate (loc : GoLocation) (t years months days : Int) : Int :=
  let c := absGetCivil loc t
  timeDate loc (c.year + years) (c.month + months) (c.day + days) c.hour c.minute c.second

/-- Absolute instant of Go's zero `time.Time` (January 1, year 1, 00:00:00
UTC) in this model.  `Time.IsZero()` is equality with this instant. -/
def goZeroTime : Int := daysFromCivil 1 1 1 * 86400

/-- Model of Go's `Time.IsZero()`. -/
def isZeroTime (t : Int) : Bool := t == goZeroTime

/-- Metadata maps (`map[string]string`) are modelled as association lists
with unique keys; lookup is by first match. -/
def Metadata : Type := List (String × String)

/-- Insert-or-overwrite of one key, the effect of `dst[k] = v` on a Go map. -/
def mapInsert (l : List (String × String)) (k v : String) : List (String × String) :=
  match l with
  | [] => [(k, v)]
  | (k0, v0) :: rest => if k0 = k then (k, v) :: rest else (k0, v0) :: mapInsert rest k v

/-- Model of Go's `maps.Copy(dst, src)`: every key of `src` is written
into `dst`, overwriting existing entries. -/
def mapsCopy (dst src : List (String × String)) : List (String × String) :=
  src.foldl (fun acc kv => mapInsert acc kv.1 kv.2) dst

/-- Metadata read-merge-write step of `CreateVolumeSubscription`
(`internal/cloud/openstack/volume.go`): fetch the volume's current
metadata (a nil map becomes empty), shallow-merge the patch over it with
`maps.Copy`, and push the merged map back.  The value returned here is the
map sent in the update request. -/
def createVolumeSubscriptionMerge (current : Option (List (String × String)))
    (patch : List (String × String)) : List (String × String) :=
  mapsCopy (current.getD []) patch

/-- The `LastSnapshotInfo` DTO of `internal/policy/types.go`. -/
structure LastSnapshotInfo where
  createdAt : Int
  status : String
  id : String
  metadata : List (String × String)

/-- The `SnapshotPolicyWindow` record of `internal/policy/types.go`. -/
structure SnapshotPolicyWindow where
  startTime : Int
  endTime : Int
  validatedTime : Int
deriving DecidableEq, Repr

/-- The `SnapshotMetadata` record of `internal/policy/metadata.go`,
with the zero value of each Go field. -/
structure SnapshotMetadata where
  managed : Bool
  expiryDate : Int
  policyType : String
  retentionDays : Int
deriving DecidableEq, Repr

/-- Zero value of `SnapshotMetadata`. -/
def zeroSnapshotMetadata : SnapshotMetadata := ⟨false, goZeroTime, "", 0⟩

/-- The `PolicyEvalResult` record of `internal/policy/types.go`. -/
structure PolicyEvalResult where
  shouldSnapshot : Bool
  window : SnapshotPolicyWindow
  metadata : SnapshotMetadata
  reason : String

/-- Zero value of `SnapshotPolicyWindow` (all fields are Go zero times). -/
def zeroWindow : SnapshotPolicyWindow := ⟨goZeroTime, goZeroTime, goZeroTime⟩

/-- Translation of `helperEvaluateWindow` from `internal/policy/helper.go`.
Window selection: when `now` is before `potentialStart` the active window
is the previous cycle `[potentialStart - duration, potentialStart)`, else
`[potentialStart, potentialStart + duration)`.  Membership and the
idempotency check both use the half-open convention with an inclusive
start (`Equal || After` and `Before` in the source).  A zero `CreatedAt`
skips the idempotency check.  The `reason` strings carry the source's
message text without the formatted time values. -/
def helperEvaluateWindow (now potentialStart duration : Int)
    (lastSnapshot : LastSnapshotInfo) : PolicyEvalResult :=
  let startTime := if now < potentialStart then potentialStart - duration else potentialStart
  let window : SnapshotPolicyWindow :=
    ⟨startTime, startTime + duration, now⟩
  let isInside := (now = window.startTime ∨ now > window.startTime) ∧ now < window.endTime
  if ¬ isInside then
    ⟨false, window, zeroSnapshotMetadata,
      "Current time is outside the active window"⟩
  else
    let hasSnapshot :=
      if ¬ isZeroTime lastSnapshot.createdAt then
        let snapTime := lastSnapshot.createdAt
        (snapTime = window.startTime ∨ snapTime > window.startTime) ∧ snapTime < window.endTime
      else False
    if hasSnapshot then
      ⟨false, window, zeroSnapshotMetadata,
        "Snapshot already exists in active window"⟩
    else
      ⟨true, window, zeroSnapshotMetadata,
        "Snapshot Window is active and no existing snapshot found."⟩

/-- The `SnapshotPolicyExpress` struct of `internal/policy/express.go`,
including the internal fields populated by `Normalize`. -/
structure SnapshotPolicyExpress where
  enabled : Bool
  intervalHours : Int
  retentionDays : Int
  retentionType : String
  timeZone : String
  loc : GoLocation
  startHour : Int
  startMinute : Int

/-- Translation of `SnapshotPolicyExpress.Evaluate`.  The Go method also
returns an `error` value that is `nil` on every path; only the result is
modelled.  Localising the last snapshot with `In(loc)` does not change the
absolute instant and is the identity here. -/
def expressEvaluate (s : SnapshotPolicyExpress) (now : Int)
    (lastSnapshot : LastSnapshotInfo) : PolicyEvalResult :=
  if ¬ s.enabled then
    ⟨false, zeroWindow, zeroSnapshotMetadata, "Express Snapshot policy is disabled"⟩
  else
    let referenceTime := now
    let cd := absGetCivil s.loc referenceTime
    let midnight := timeDate s.loc cd.year cd.month cd.day 0 0 0
    let currentHour := timeHour s.loc referenceTime
    let slotStartHour := currentHour / s.intervalHours * s.intervalHours
    let windowStart := midnight + slotStartHour * 3600
    let localizedSnap := lastSnapshot
    let result := helperEvaluateWindow referenceTime windowStart
      (s.intervalHours * 3600) localizedSnap
    if ¬ result.shouldSnapshot then result
    else
      { result with metadata :=
          ⟨true, addDate s.loc result.window.startTime 0 0 s.retentionDays,
           "express", s.retentionDays⟩ }

/-- Translation of `helperGetMonthlyDate` from `internal/policy/helper.go`:
build the first of the (possibly unnormalised) target month, find the last
day of that month with `AddDate(0, 1, -1)`, clamp the requested day to it,
and build the clamped date. -/
def helperGetMonthlyDate (loc : GoLocation) (year month targetDay hour minute : Int) : Int :=
  let firstOfMonth := timeDate loc year month 1 hour minute 0
  let lastOfMonth := addDate loc firstOfMonth 0 1 (-1)
  let actualDay := if targetDay > timeDay loc lastOfMonth then timeDay loc lastOfMonth
                   else targetDay
  timeDate loc year month actualDay hour minute 0

/-- Zone database abstraction for `time.LoadLocation`: a list of named
locations.  As in Go, the name "UTC" always resolves. -/
def loadLocation (db : List (String × GoLocation)) (name : String) : Option GoLocation :=
  if name = "UTC" then some utcLoc else (db.lookup name)

/-- Translation of `helperNormalizeTimezone`: an empty name defaults to
"UTC", an unknown name is an error. -/
def helperNormalizeTimezone (db : List (String × GoLocation)) (timezone : String) :
    Except String (String × GoLocation) :=
  let tz := if timezone = "" then "UTC" else timezone
  match loadLocation db tz with
  | some loc => .ok (tz, loc)
  | none => .error ("invalid timezone " ++ tz)

/-- Translation of `helperNormalizeRetentionDays`. -/
def helperNormalizeRetentionDays (days defaultDays : Int) : Int :=
  if days ≤ 0 then defaultDays else days

/-- Translation of `helperNormalizeDay` from `internal/policy/helper.go`:
the exact accepted spellings of each weekday (Go `switch` on the string),
with the empty string first replaced by "sunday".  Weekdays are the
integers 0 (Sunday) to 6 (Saturday) of Go's `time.Weekday`. -/
def helperNormalizeDay (dayStrIn : String) : Except String Int :=
  let dayStr := if dayStrIn = "" then "sunday" else dayStrIn
  if dayStr = "Sunday" ∨ dayStr = "Sun" ∨ dayStr = "sun" ∨ dayStr = "sunday" ∨ dayStr = "0" then
    .ok 0
  else if dayStr = "Monday" ∨ dayStr = "Mon" ∨ dayStr = "mon" ∨ dayStr = "monday" ∨ dayStr = "1" then
    .ok 1
  else if dayStr = "Tuesday" ∨ dayStr = "Tue" ∨ dayStr = "tue" ∨ dayStr = "tuesday" ∨ dayStr = "2" then
    .ok 2
  else if dayStr = "Wednesday" ∨ dayStr = "Wed" ∨ dayStr = "wed" ∨ dayStr = "wednesday" ∨ dayStr = "3" then
    .ok 3
  else if dayStr = "Thursday" ∨ dayStr = "Thu" ∨ dayStr = "thu" ∨ dayStr = "thursday" ∨ dayStr = "4" then
    .ok 4
  else if dayStr = "Friday" ∨ dayStr = "Fri" ∨ dayStr = "fri" ∨ dayStr = "friday" ∨ dayStr = "5" then
    .ok 5
  else if dayStr = "Saturday" ∨ dayStr = "Sat" ∨ dayStr = "sat" ∨ dayStr = "saturday" ∨ dayStr = "6" then
    .ok 6
  else
    .error ("invalid day " ++ dayStr)

/-- Translation of `SnapshotPolicyExpress.Normalize`: timezone via
`helperNormalizeTimezone`, interval hours coerced to 6 when non-positive,
then validated against the set 6, 8, 12 (the `case 0` arm of the Go switch
is unreachable after the coercion), retention defaulted to 1, start hour
and minute zeroed. -/
def expressNormalize (db : List (String × GoLocation)) (s : SnapshotPolicyExpress) :
    Except String SnapshotPolicyExpress :=
  match helperNormalizeTimezone db s.timeZone with
  | .error e => .error e
  | .ok (tz, loc) =>
    let s : SnapshotPolicyExpress := { s with loc := loc, timeZone := tz }
    let iv : Int := if s.intervalHours ≤ 0 then 6 else s.intervalHours
    if iv = 6 ∨ iv = 8 ∨ iv = 12 then
      .ok { s with
        intervalHours := iv,
        retentionDays := helperNormalizeRetentionDays s.retentionDays 1,
        startHour := 0, startMinute := 0 }
    else if iv = 0 then
      .ok { s with
        intervalHours := 6,
        retentionDays := helperNormalizeRetentionDays s.retentionDays 1,
        startHour := 0, startMinute := 0 }
    else
      .error "express interval must be 6, 8, or 12 hours"

/-- Decimal digit value of a character, if any. -/
def digitVal (ch : Char) : Option Int :=
  if '0' ≤ ch ∧ ch ≤ '9' then some ((ch.toNat : Int) - 48) else none

/-- Read the decimal digit at position `i` of a character list. -/
def digitAt (cs : List Char) (i : Nat) : Option Int :=
  match cs.get? i with
  | some ch => digitVal ch
  | none => none

/-- Expect the character `ch` at position `i`. -/
def charAt (cs : List Char) (i : Nat) (ch : Char) : Bool :=
  cs.get? i == some ch

/-- Two-digit zero-padded decimal rendering of a value in 0..99. -/
def pad2 (n : Int) : String :=
  (if n < 10 then "0" else "") ++ toString n.natAbs

/-- Four-digit zero-padded decimal rendering of a value in 0..9999. -/
def pad4 (n : Int) : String :=
  (if n < 10 then "000" else if n < 100 then "00" else if n < 1000 then "0" else "") ++
    toString n.natAbs

/-- RFC 3339 rendering of the absolute instant `t` with a display offset
of `offsetSec` seconds, the behaviour of Go's
`Time.Format(time.RFC3339)` for whole-second times. -/
def formatRFC3339 (offsetSec t : Int) : String :=
  let lt := t + offsetSec
  let cd := civilFromDays (lt / 86400)
  let rest := lt % 86400
  pad4 cd.year ++ "-" ++ pad2 cd.month ++ "-" ++ pad2 cd.day ++ "T" ++
    pad2 (rest / 3600) ++ ":" ++ pad2 (rest % 3600 / 60) ++ ":" ++ pad2 (rest % 60) ++
    (if offsetSec = 0 then "Z"
     else (if offsetSec > 0 then "+" else "-") ++
       pad2 (offsetSec.natAbs / 3600) ++ ":" ++ pad2 (offsetSec.natAbs % 3600 / 60))

/-- Zone suffix of an RFC 3339 string starting at position 19: either a
literal "Z" or a signed "hh:mm" offset in seconds. -/
def parseRFC3339Zone (cs : List Char) : Option Int :=
  if charAt cs 19 'Z' ∧ cs.length = 20 then some 0
  else if (charAt cs 19 '+' ∨ charAt cs 19 '-') ∧ charAt cs 22 ':' ∧ cs.length = 25 then
    match digitAt cs 20, digitAt cs 21, digitAt cs 23, digitAt cs 24 with
    | some h1, some h2, some m1, some m2 =>
      let off := (h1 * 10 + h2) * 3600 + (m1 * 10 + m2) * 60
      if h1 * 10 + h2 ≤ 23 ∧ m1 * 10 + m2 ≤ 59 then
        some (if charAt cs 19 '-' then -off else off)
      else none
    | _, _, _, _ => none
  else none

/-- Model of `time.Parse(time.RFC3339, s)` restricted to whole seconds:
strict "yyyy-mm-ddThh:mm:ss" followed by "Z" or a signed "hh:mm" offset,
with field range checks; returns the absolute instant.  The empty string
and any malformed string return `none` (a parse error). -/
def parseRFC3339 (s : String) : Option Int :=
  let cs := s.toList
  match digitAt cs 0, digitAt cs 1, digitAt cs 2, digitAt cs 3,
        digitAt cs 5, digitAt cs 6, digitAt cs 8, digitAt cs 9,
        digitAt cs 11, digitAt cs 12, digitAt cs 14, digitAt cs 15,
        digitAt cs 17, digitAt cs 18 with
  | some y1, some y2, some y3, some y4, some m1, some m2, some d1, some d2,
    some h1, some h2, some mi1, some mi2, some s1, some s2 =>
    if charAt cs 4 '-' ∧ charAt cs 7 '-' ∧ charAt cs 10 'T' ∧
       charAt cs 13 ':' ∧ charAt cs 16 ':' then
      let y := ((y1 * 10 + y2) * 10 + y3) * 10 + y4
      let mo := m1 * 10 + m2
      let d := d1 * 10 + d2
      let h := h1 * 10 + h2
      let mi := mi1 * 10 + mi2
      let sec := s1 * 10 + s2
      if 1 ≤ mo ∧ mo ≤ 12 ∧ 1 ≤ d ∧ d ≤ daysInMonth y mo ∧
         h ≤ 23 ∧ mi ≤ 59 ∧ sec ≤ 59 then
        match parseRFC3339Zone cs with
        | some off =>
          some (daysFromCivil y mo d * 86400 + h * 3600 + mi * 60 + sec - off)
        | none => none
      else none
    else none
  | _, _, _, _, _, _, _, _, _, _, _, _, _, _ => none

/-- Translation of `SnapshotMetadata.ToOpenstackMetadata`
(`internal/policy/metadata.go`): a zero expiry serialises to the empty
string for both expiry keys; the managed flag is written under the
`x-snapsentry-snapshot-managed` key; `displayOffset` is the zone offset
the expiry `time.Time` value carries, used only for the user-timezone
key (the primary expiry key is first converted to UTC). -/
def snapshotMetadataToOpenstack (s : SnapshotMetadata) (displayOffset : Int) :
    List (String × String) :=
  let expiryDateStr := if ¬ isZeroTime s.expiryDate then formatRFC3339 0 s.expiryDate else ""
  let expiryDateStrTZ :=
    if ¬ isZeroTime s.expiryDate then formatRFC3339 displayOffset s.expiryDate else ""
  [("x-snapsentry-snapshot-managed", if s.managed then "true" else "false"),
   ("x-snapsentry-snapshot-expiry-date", expiryDateStr),
   ("x-snapsentry-snapshot-expiry-date-user-tz", expiryDateStrTZ),
   ("x-snapsentry-snapshot-policy-type", s.policyType),
   ("x-snapsentry-snapshot-retention-days", toString s.retentionDays)]

/-- Weakly-typed string-to-bool coercion of the mapstructure decoder with
`WeaklyTypedInput`: the spellings accepted by Go's `strconv.ParseBool`,
with the empty string decoding to `false`. -/
def weakParseBool (s : String) : Except String Bool :=
  if s = "1" ∨ s = "t" ∨ s = "T" ∨ s = "TRUE" ∨ s = "true" ∨ s = "True" then .ok true
  else if s = "0" ∨ s = "f" ∨ s = "F" ∨ s = "FALSE" ∨ s = "false" ∨ s = "False" then .ok false
  else if s = "" then .ok false
  else .error ("cannot parse as bool: " ++ s)

/-- Digit-list to integer accumulator for `weakParseInt`. -/
def digitsToInt (cs : List Char) (acc : Int) : Option Int :=
  match cs with
  | [] => some acc
  | ch :: rest =>
    match digitVal ch with
    | some v => digitsToInt rest (acc * 10 + v)
    | none => none

/-- Weakly-typed string-to-int coercion of the mapstructure decoder: an
optional sign followed by decimal digits, with the empty string decoding
to 0 (the hexadecimal and octal forms accepted by `strconv.ParseInt` with
base 0 do not occur in this system's metadata and are not modelled). -/
def weakParseInt (s : String) : Except String Int :=
  if s = "" then .ok 0
  else
    match s.toList with
    | '-' :: rest =>
      match digitsToInt rest 0 with
      | some v => if rest.isEmpty then .error "empty digits" else .ok (-v)
      | none => .error ("cannot parse as int: " ++ s)
    | '+' :: rest =>
      match digitsToInt rest 0 with
      | some v => if rest.isEmpty then .error "empty digits" else .ok v
      | none => .error ("cannot parse as int: " ++ s)
    | cs =>
      match digitsToInt cs 0 with
      | some v => .ok v
      | none => .error ("cannot parse as int: " ++ s)

/-- Translation of `ParseSnapSentryMetadataFromSDK[SnapshotMetadata]`
(`internal/policy/helper.go`): each struct field is read from the metadata
map under its `json` tag, with weak typing and the RFC 3339 decode hook
for `time.Time` fields.  A missing key leaves the field at its zero
value; unknown keys are ignored.  The tags are those declared on
`SnapshotMetadata` in `internal/policy/metadata.go`: the managed flag's
tag is `x-snapsentry-managed`. -/
def parseSnapshotMetadataFromSDK (md : List (String × String)) :
    Except String SnapshotMetadata :=
  let managedRes : Except String Bool :=
    match md.lookup "x-snapsentry-managed" with
    | none => .ok false
    | some s => weakParseBool s
  let expiryRes : Except String Int :=
    match md.lookup "x-snapsentry-snapshot-expiry-date" with
    | none => .ok goZeroTime
    | some s =>
      match parseRFC3339 s with
      | some t => .ok t
      | none => .error ("cannot parse as RFC3339 time: " ++ s)
  let retentionRes : Except String Int :=
    match md.lookup "x-snapsentry-snapshot-retention-days" with
    | none => .ok 0
    | some s => weakParseInt s
  match managedRes, expiryRes, retentionRes with
  | .ok managed, .ok expiry, .ok retention =>
    .ok ⟨managed, expiry, (md.lookup "x-snapsentry-snapshot-policy-type").getD "", retention⟩
  | .error e, _, _ => .error e
  | _, .error e, _ => .error e
  | _, _, .error e => .error e

/-- Decision taken by `processSnapshotExpiry` for one snapshot. -/
inductive ExpiryDecision where
  | skipInvalidMetadata
  | skipNotExpired
  | deleteSnapshot
deriving DecidableEq, Repr

/-- Translation of the decision logic of `processSnapshotExpiry` (expiry
workflow): parse the snapshot's stored metadata (a parse error skips with
a warning), skip while `now.Before(expiryDate)`, otherwise issue
`DeleteSnapshot`. -/
def processSnapshotExpiry (snapMetadata : List (String × String)) (now : Int) :
    ExpiryDecision :=
  match parseSnapshotMetadataFromSDK snapMetadata with
  | .error _ => .skipInvalidMetadata
  | .ok meta =>
    if now < meta.expiryDate then .skipNotExpired
    else .deleteSnapshot

/-- Error values visible to the retry classifier: an HTTP response with a
status code (gophercloud `ErrUnexpectedResponseCode`), a wrapper in the
sense of `fmt.Errorf("...: %w", err)`, or any other error. -/
inductive GoError where
  | unexpectedResponseCode (actual : Int)
  | wrapped (msg : String) (inner : GoError)
  | generic (msg : String)
deriving DecidableEq, Repr

/-- Model of `errors.As(err, &ErrUnexpectedResponseCode)`: the status code
of the first HTTP-status-coded error in the wrap chain, if any. -/
def findHTTPCode : GoError → Option Int
  | .unexpectedResponseCode actual => some actual
  | .wrapped _ inner => findHTTPCode inner
  | .generic _ => none

/-- Translation of `isRetryable` (`internal/cloud/openstack/helper.go`):
HTTP 408, 429, 500, 503 and 504 are retryable, any other HTTP-status-coded
error is not, and every error that is not an HTTP-status-coded response is
assumed transient and retryable. -/
def isRetryable (e : GoError) : Bool :=
  match findHTTPCode e with
  | some actual =>
    if actual = 429 ∨ actual = 408 ∨ actual = 500 ∨ actual = 503 ∨ actual = 504 then true
    else false
  | none => true

/-- Result of the `ExecuteAction` retry loop: number of times the
operation ran, and the returned error if any.  The backoff sleeps,
jitter and context deadlines are real-time behaviour outside this
embedding; `op n` is the outcome of attempt `n` (`none` is success). -/
structure ExecResult where
  invocations : Nat
  result : Option GoError
deriving DecidableEq, Repr

/-- Retry loop of `ExecuteAction` from attempt `attempt`; `fuel` is the
number of loop iterations still permitted (`maxRetries + 1 - attempt`). -/
def executeActionFrom (op : Nat → Option GoError) (maxRetries : Nat) :
    Nat → Nat → ExecResult
  | _, 0 => ⟨0, none⟩
  | attempt, fuel + 1 =>
    match op attempt with
    | none => ⟨1, none⟩
    | some e =>
      if ¬ isRetryable e then ⟨1, some e⟩
      else if attempt = maxRetries then ⟨1, some (.wrapped "failed after retries" e)⟩
      else
        let rest := executeActionFrom op maxRetries (attempt + 1) fuel
        ⟨rest.invocations + 1, rest.result⟩

/-- Translation of `ExecuteAction` (`internal/cloud/openstack/helper.go`)
with the deadline never firing: run `op` for attempts 0 through
`maxRetries`, stopping at the first success or the first non-retryable
error (returned unchanged), and wrapping the final error on exhaustion. -/
def executeAction (op : Nat → Option GoError) (maxRetries : Nat) : ExecResult :=
  executeActionFrom op maxRetries 0 (maxRetries + 1)

/-- The snapshot fields of the gophercloud `snapshots.Snapshot` struct
used by this system. -/
structure GoSnapshot where
  id : String
  status : String
  createdAt : Int
  metadata : List (String × String)
deriving DecidableEq, Repr

/-- Zero value of `snapshots.Snapshot` as returned by the error path of
`CreateManagedSnapshot`. -/
def emptyGoSnapshot : GoSnapshot := ⟨"", "", goZeroTime, []⟩

/-- Backend behaviour of one attempt of the create operation inside
`CreateManagedSnapshot`: the request id header, the result of
`result.Extract()` and the result of `snapshots.WaitForStatus`. -/
structure CreateAttempt where
  requestId : String
  extract : Except GoError GoSnapshot
  wait : Option GoError

/-- One pass of the create operation closure: updates the captured
`createdSnapshot` and `requestID` variables and returns the attempt's
error, exactly as the `createOperation` closure does. -/
def createOperationStep (a : CreateAttempt) (createdSnapshot : GoSnapshot) :
    GoSnapshot × String × Option GoError :=
  match a.extract with
  | .error e => (createdSnapshot, a.requestId, some e)
  | .ok snap =>
    match a.wait with
    | some e =>
      (snap, a.requestId, some (.wrapped "failed waiting for snapshot to become available" e))
    | none => (snap, a.requestId, none)

/-- Retry loop of `executeWithRetry` threaded through the captured
variables of `createOperation`. -/
def createLoopFrom (attempts : Nat → CreateAttempt) (maxRetries : Nat) :
    Nat → Nat → GoSnapshot → String → GoSnapshot × String × Option GoError
  | _, 0, snap, reqId => (snap, reqId, none)
  | attempt, fuel + 1, snap, _ =>
    let step := createOperationStep (attempts attempt) snap
    match step.2.2 with
    | none => (step.1, step.2.1, none)
    | some e =>
      if ¬ isRetryable e then (step.1, step.2.1, some e)
      else if attempt = maxRetries then
        (step.1, step.2.1, some (.wrapped "failed after retries" e))
      else createLoopFrom attempts maxRetries (attempt + 1) fuel step.1 step.2.1

/-- Translation of `CreateManagedSnapshot`
(`internal/cloud/openstack/snapshot.go`): run the create operation under
the retry executor; on any error the function returns the ZERO
`snapshots.Snapshot{}` literal together with the last request id and the
error, discarding the captured `createdSnapshot` value. -/
def createManagedSnapshot (attempts : Nat → CreateAttempt) (maxRetries : Nat) :
    GoSnapshot × String × Option GoError :=
  let r := createLoopFrom attempts maxRetries 0 (maxRetries + 1) emptyGoSnapshot ""
  match r.2.2 with
  | some e => (emptyGoSnapshot, r.2.1, some e)
  | none => (r.1, r.2.1, none)

/-- Orphan-cleanup guard of `processVolume` (creation workflow): after a
failed create, cleanup runs only when the returned snapshot carries a
non-empty id (`createdSnap.ID != ""`). -/
def orphanCleanupFires (snap : GoSnapshot) : Bool := snap.id ≠ ""

/-- Model of Go's `Time.Weekday()` (0 = Sunday): the weekday of the local
calendar day of the instant `t`.  Epoch day 0 (1970-01-01) was a
Thursday, weekday 4. -/
def timeWeekday (loc : GoLocation) (t : Int) : Int :=
  ((t + loc.offsetAt t) / 86400 + 4) % 7

/-- The `SnapshotPolicyDaily` struct of the daily policy source, including
the internal fields populated by `Normalize`. -/
structure SnapshotPolicyDaily where
  enabled : Bool
  retentionDays : Int
  retentionType : String
  timeZone : String
  startTime : String
  loc : GoLocation
  startHour : Int
  startMinute : Int

/-- Translation of `SnapshotPolicyDaily.Evaluate`: the potential start is
today at the configured start time, the window duration is 24 hours, and
on a take the expiry is the window start advanced by `RetentionDays`
calendar days with `AddDate`.  The Go method's `error` return is `nil` on
every path and is not modelled; localising with `In(loc)` is the
identity on absolute instants. -/
def dailyEvaluate (s : SnapshotPolicyDaily) (now : Int)
    (lastSnapshot : LastSnapshotInfo) : PolicyEvalResult :=
  if ¬ s.enabled then
    ⟨false, zeroWindow, zeroSnapshotMetadata, "Daily Snapshot Policy is disabled"⟩
  else
    let referenceTime := now
    let cd := absGetCivil s.loc referenceTime
    let todayStart := timeDate s.loc cd.year cd.month cd.day s.startHour s.startMinute 0
    let localizedSnap := lastSnapshot
    let result := helperEvaluateWindow referenceTime todayStart (24 * 3600) localizedSnap
    if ¬ result.shouldSnapshot then result
    else
      { result with metadata :=
          ⟨true, addDate s.loc result.window.startTime 0 0 s.retentionDays,
           "daily", s.retentionDays⟩ }

/-- The `SnapshotPolicyWeekly` struct of `internal/policy/weekly.go`,
including the internal fields populated by `Normalize`
(`startDayWeekday` is 0..6, Sunday = 0). -/
structure SnapshotPolicyWeekly where
  enabled : Bool
  retentionDays : Int
  retentionType : String
  timeZone : String
  startTime : String
  dayOfWeek : String
  loc : GoLocation
  startHour : Int
  startMinute : Int
  startDayWeekday : Int

/-- Translation of `SnapshotPolicyWeekly.Evaluate`: the reference day is
shifted by `targetWeekday - currentWeekday` days with `AddDate`, the
potential start is that aligned day at the configured start time, the
window duration is 7 days, and on a take the expiry is the window start
advanced by `RetentionDays` calendar days. -/
def weeklyEvaluate (s : SnapshotPolicyWeekly) (now : Int)
    (lastSnapshot : LastSnapshotInfo) : PolicyEvalResult :=
  if ¬ s.enabled then
    ⟨false, zeroWindow, zeroSnapshotMetadata, "Weekly Snapshot Policy is disabled"⟩
  else
    let referenceTime := now
    let currentWeekday := timeWeekday s.loc referenceTime
    let daysToShift := s.startDayWeekday - currentWeekday
    let alignedDate := addDate s.loc referenceTime 0 0 daysToShift
    let ad := absGetCivil s.loc alignedDate
    let potentialStart := timeDate s.loc ad.year ad.month ad.day s.startHour s.startMinute 0
    let localizedSnap := lastSnapshot
    let result := helperEvaluateWindow referenceTime potentialStart (7 * 86400) localizedSnap
    if ¬ result.shouldSnapshot then result
    else
      { result with metadata :=
          ⟨true, addDate s.loc result.window.startTime 0 0 s.retentionDays,
           "weekly", s.retentionDays⟩ }

/-- The `SnapshotPolicyMonthly` struct of the monthly policy source,
including the internal fields populated by `Normalize` (`dayOfMonth` is
clamped to 1..31 there). -/
structure SnapshotPolicyMonthly where
  enabled : Bool
  retentionDays : Int
  retentionType : String
  timeZone : String
  startTime : String
  dayOfMonth : Int
  loc : GoLocation
  startHour : Int
  startMinute : Int

/-- Translation of `SnapshotPolicyMonthly.Evaluate`: the target of the
current month is built with `helperGetMonthlyDate`; when the reference
time is before it the window runs from last month's target to it,
otherwise from it to next month's target; the duration is the difference
of the two boundaries, and on a take the expiry is the window start
advanced by `RetentionDays` calendar days. -/
def monthlyEvaluate (s : SnapshotPolicyMonthly) (now : Int)
    (lastSnapshot : LastSnapshotInfo) : PolicyEvalResult :=
  if ¬ s.enabled then
    ⟨false, zeroWindow, zeroSnapshotMetadata, "Monthly Snapshot Policy is disabled"⟩
  else
    let referenceTime := now
    let cd := absGetCivil s.loc referenceTime
    let thisMonthTarget :=
      helperGetMonthlyDate s.loc cd.year cd.month s.dayOfMonth s.startHour s.startMinute
    let p :=
      if referenceTime < thisMonthTarget then
        (helperGetMonthlyDate s.loc cd.year (cd.month - 1) s.dayOfMonth s.startHour s.startMinute,
         thisMonthTarget)
      else
        (thisMonthTarget,
         helperGetMonthlyDate s.loc cd.year (cd.month + 1) s.dayOfMonth s.startHour s.startMinute)
    let windowStart := p.1
    let nextWindowStart := p.2
    let duration := nextWindowStart - windowStart
    let localizedSnap := lastSnapshot
    let result := helperEvaluateWindow referenceTime windowStart duration localizedSnap
    if ¬ result.shouldSnapshot then result
    else
      { result with metadata :=
          ⟨true, addDate s.loc result.window.startTime 0 0 s.retentionDays,
           "monthly", s.retentionDays⟩ }

/-- Propositional form of the leap-year test. -/
theorem isLeapYear_iff (y : Int) :
    isLeapYear y = true ↔ ((y % 4 = 0 ∧ ¬ y % 100 = 0) ∨ y % 400 = 0) := by
  simp [isLeapYear]

set_option maxHeartbeats 2000000 in
/-- Correctness of the year-of-era extraction formula on every day offset
of a 400-year era (the day-of-year bound is 365 exactly in leap years of
the era). -/
theorem yoe_extract (yoe doy : Int) (h1 : 0 ≤ yoe) (h2 : yoe ≤ 399)
    (h3 : 0 ≤ doy)
    (h4 : doy ≤ 364 + (if ((yoe + 1) % 4 = 0 ∧ ¬(yoe + 1) % 100 = 0) ∨ (yoe + 1) % 400 = 0 then 1 else 0)) :
    yoeOfDoe (doeOfYoe yoe doy) = yoe := by
  simp only [yoeOfDoe, doeOfYoe]
  interval_cases yoe <;> omega

/-- Evaluation of `civilFromDays` at a day number presented in era form. -/
theorem civilFromDays_eq (era yoe mpv d doy : Int)
    (he1 : 0 ≤ yoe) (he2 : yoe ≤ 399) (hm1 : 0 ≤ mpv) (hm2 : mpv ≤ 11)
    (hd1 : 1 ≤ d) (hd2 : 5 * d ≤ 153 + (153 * mpv + 2) % 5)
    (hdoy : doy = (153 * mpv + 2) / 5 + d - 1)
    (hub : doy ≤ 364 + (if ((yoe + 1) % 4 = 0 ∧ ¬(yoe + 1) % 100 = 0) ∨ (yoe + 1) % 400 = 0 then 1 else 0)) :
    civilFromDays (era * 146097 + doeOfYoe yoe doy - 719468) =
      ⟨yoe + era * 400 + (if mpv ≥ 10 then 1 else 0),
       if mpv < 10 then mpv + 3 else mpv - 9, d⟩ := by
  have hdoy0 : 0 ≤ doy := by omega
  have hA : yoeOfDoe (doeOfYoe yoe doy) = yoe := yoe_extract yoe doy he1 he2 hdoy0 hub
  have hDb : 0 ≤ doeOfYoe yoe doy ∧ doeOfYoe yoe doy ≤ 146096 := by
    simp only [doeOfYoe]; omega
  have hEra : (era * 146097 + doeOfYoe yoe doy - 719468 + 719468) / 146097 = era := by
    omega
  have hDoe : era * 146097 + doeOfYoe yoe doy - 719468 + 719468 - era * 146097 = doeOfYoe yoe doy := by
    omega
  have hDoy : doeOfYoe yoe doy - (365 * yoe + yoe / 4 - yoe / 100) = doy := by
    simp only [doeOfYoe]; omega
  have hMp : (5 * doy + 2) / 153 = mpv := by omega
  have hDay : doy - (153 * mpv + 2) / 5 + 1 = d := by omega
  simp only [civilFromDays]
  rw [hEra, hDoe, hA, hDoy, hMp, hDay]
  rcases lt_or_ge mpv 10 with h | h
  · have hb : ¬ mpv ≥ 10 := by omega
    have hc : ¬ (mpv + 3 ≤ 2) := by omega
    simp only [if_pos h, if_neg hb, if_neg hc]
  · have hb : ¬ mpv < 10 := by omega
    have hc : mpv - 9 ≤ 2 := by omega
    simp only [if_neg hb, if_pos h, if_pos hc]

set_option maxHeartbeats 1000000 in
/-- Round trip of the civil-calendar conversions on every valid date:
reading back the civil fields of the epoch-day number of a valid date
yields that date. -/
theorem civil_roundtrip (y m d : Int) (h1 : 1 ≤ m) (h2 : m ≤ 12) (h3 : 1 ≤ d)
    (h4 : d ≤ daysInMonth y m) :
    civilFromDays (daysFromCivil y m d) = ⟨y, m, d⟩ := by
  have key : ∀ mpv : Int, 0 ≤ mpv → mpv ≤ 11 →
      mpv = (if m > 2 then m - 3 else m + 9) →
      5 * d ≤ 153 + (153 * mpv + 2) % 5 →
      ((153 * mpv + 2) / 5 + d - 1 ≤ 364 +
        (if ((y - (if m ≤ 2 then 1 else 0) - (y - (if m ≤ 2 then 1 else 0)) / 400 * 400 + 1) % 4 = 0 ∧
             ¬(y - (if m ≤ 2 then 1 else 0) - (y - (if m ≤ 2 then 1 else 0)) / 400 * 400 + 1) % 100 = 0) ∨
            (y - (if m ≤ 2 then 1 else 0) - (y - (if m ≤ 2 then 1 else 0)) / 400 * 400 + 1) % 400 = 0
         then 1 else 0)) →
      civilFromDays (daysFromCivil y m d) = ⟨y, m, d⟩ := by
    intro mpv hm1 hm2 hmp hd2 hub
    have hsplit := civilFromDays_eq ((y - (if m ≤ 2 then 1 else 0)) / 400)
      (y - (if m ≤ 2 then 1 else 0) - (y - (if m ≤ 2 then 1 else 0)) / 400 * 400)
      mpv d ((153 * mpv + 2) / 5 + d - 1)
      (by omega) (by omega) hm1 hm2 h3 hd2 rfl hub
    have harg : daysFromCivil y m d =
        (y - (if m ≤ 2 then 1 else 0)) / 400 * 146097 +
        doeOfYoe (y - (if m ≤ 2 then 1 else 0) - (y - (if m ≤ 2 then 1 else 0)) / 400 * 400)
          ((153 * mpv + 2) / 5 + d - 1) - 719468 := by
      simp only [daysFromCivil, hmp]
    rw [harg, hsplit]
    rcases le_or_lt m 2 with hle | hlt
    · simp only [if_pos hle] at *
      have : mpv = m + 9 := by omega
      congr 1 <;> omega
    · simp only [if_neg (by omega : ¬ m ≤ 2)] at *
      have : mpv = m - 3 := by omega
      congr 1 <;> omega
  interval_cases m
  · have h4a : d ≤ 31 := by simpa [daysInMonth] using h4
    exact key 10 (by norm_num) (by norm_num) (by norm_num) (by omega) (by split <;> omega)
  · have h4a : d ≤ if isLeapYear y then 29 else 28 := by simpa [daysInMonth] using h4
    by_cases hL : (y % 4 = 0 ∧ ¬ y % 100 = 0) ∨ y % 400 = 0
    · rw [if_pos ((isLeapYear_iff y).mpr hL)] at h4a
      refine key 11 (by norm_num) (by norm_num) (by norm_num) (by omega) ?_
      norm_num
      split <;> omega
    · rw [if_neg (fun hB => hL ((isLeapYear_iff y).mp hB))] at h4a
      refine key 11 (by norm_num) (by norm_num) (by norm_num) (by omega) ?_
      norm_num
      split <;> omega
  · have h4a : d ≤ 31 := by simpa [daysInMonth] using h4
    exact key 0 (by norm_num) (by norm_num) (by norm_num) (by omega) (by split <;> omega)
  · have h4a : d ≤ 30 := by simpa [daysInMonth] using h4
    exact key 1 (by norm_num) (by norm_num) (by norm_num) (by omega) (by split <;> omega)
  · have h4a : d ≤ 31 := by simpa [daysInMonth] using h4
    exact key 2 (by norm_num) (by norm_num) (by norm_num) (by omega) (by split <;> omega)
  · have h4a : d ≤ 30 := by simpa [daysInMonth] using h4
    exact key 3 (by norm_num) (by norm_num) (by norm_num) (by omega) (by split <;> omega)
  · have h4a : d ≤ 31 := by simpa [daysInMonth] using h4
    exact key 4 (by norm_num) (by norm_num) (by norm_num) (by omega) (by split <;> omega)
  · have h4a : d ≤ 31 := by simpa [daysInMonth] using h4
    exact key 5 (by norm_num) (by norm_num) (by norm_num) (by omega) (by split <;> omega)
  · have h4a : d ≤ 30 := by simpa [daysInMonth] using h4
    exact key 6 (by norm_num) (by norm_num) (by norm_num) (by omega) (by split <;> omega)
  · have h4a : d ≤ 31 := by simpa [daysInMonth] using h4
    exact key 7 (by norm_num) (by norm_num) (by norm_num) (by omega) (by split <;> omega)
  · have h4a : d ≤ 30 := by simpa [daysInMonth] using h4
    exact key 8 (by norm_num) (by norm_num) (by norm_num) (by omega) (by split <;> omega)
  · have h4a : d ≤ 31 := by simpa [daysInMonth] using h4
    exact key 9 (by norm_num) (by norm_num) (by norm_num) (by omega) (by split <;> omega)

/-- The carry-normalisation `goNorm` preserves `hi * base + lo` and lands
`lo` in `[0, base)`. -/
theorem goNorm_spec (hi lo base : Int) (hb : 0 < base) :
    (goNorm hi lo base).1 * base + (goNorm hi lo base).2 = hi * base + lo ∧
    0 ≤ (goNorm hi lo base).2 ∧ (goNorm hi lo base).2 < base := by
  have hdm1 := Int.ediv_add_emod (-lo - 1) base
  have hm1a : 0 ≤ (-lo - 1) % base := Int.emod_nonneg _ (by omega)
  have hm1b : (-lo - 1) % base < base := Int.emod_lt_of_pos _ hb
  have hdm2 := Int.ediv_add_emod lo base
  have hm2a : 0 ≤ lo % base := Int.emod_nonneg _ (by omega)
  have hm2b : lo % base < base := Int.emod_lt_of_pos _ hb
  have hq1 : ((-lo - 1) / base) * base = -lo - 1 - (-lo - 1) % base := by
    rw [mul_comm]; linarith
  have hq2 : (lo / base) * base = lo - lo % base := by
    rw [mul_comm]; linarith
  have hval : lo + ((-lo - 1) / base + 1) * base = base - 1 - (-lo - 1) % base := by
    rw [add_mul, one_mul, hq1]; ring
  unfold goNorm
  by_cases h1 : lo < 0
  · simp only [if_pos h1]
    have hcond : ¬ ((hi - ((-lo - 1) / base + 1), lo + ((-lo - 1) / base + 1) * base).2 ≥ base) := by
      simp only [Prod.snd]; omega
    simp only [if_neg hcond]
    refine ⟨by ring, by omega, by omega⟩
  · simp only [if_neg h1]
    by_cases h2 : (hi, lo).2 ≥ base
    · simp only [if_pos h2]
      dsimp only at h2 ⊢
      refine ⟨by ring, by omega, by omega⟩
    · simp only [if_neg h2]
      dsimp only at h2 ⊢
      refine ⟨by ring, by omega, by omega⟩

/-- In-range values pass through `goNorm` unchanged. -/
theorem goNorm_id (hi lo base : Int) (h1 : 0 ≤ lo) (h2 : lo < base) :
    goNorm hi lo base = (hi, lo) := by
  unfold goNorm
  simp only [if_neg (by omega : ¬ lo < 0)]
  simp only [if_neg (show ¬ ((hi, lo).2 ≥ base) by simp only [Prod.snd]; omega)]

/-- A month already in range is fixed by the month normalisation. -/
theorem normYM_eq (y m : Int) (h1 : 1 ≤ m) (h2 : m ≤ 12) : normYM y m = (y, m) := by
  unfold normYM
  rw [goNorm_id y (m - 1) 12 (by omega) (by omega)]
  refine Prod.ext rfl ?_
  show m - 1 + 1 = m
  omega

/-- The normalised month lies in 1..12 and the pair represents the same
month count. -/
theorem normYM_bounds (y m : Int) :
    1 ≤ (normYM y m).2 ∧ (normYM y m).2 ≤ 12 ∧
    (normYM y m).1 * 12 + ((normYM y m).2 - 1) = y * 12 + (m - 1) := by
  have h := goNorm_spec y (m - 1) 12 (by norm_num)
  unfold normYM
  dsimp only
  omega

/-- Month 0 normalises to December of the previous year. -/
theorem normYM_wrap_lo (y : Int) : normYM y 0 = (y - 1, 12) := by
  norm_num [normYM, goNorm]

/-- Month 13 normalises to January of the next year. -/
theorem normYM_wrap_hi (y : Int) : normYM y 13 = (y + 1, 1) := by
  norm_num [normYM, goNorm]

/-- Evaluation of `time.Date` in a fixed-offset zone for in-range clock
fields: the instant is the epoch-day count of the (month-normalised) date
plus the clock seconds, minus the offset. -/
theorem timeDate_fixed (c y m d h mi s : Int) (hh1 : 0 ≤ h) (hh2 : h < 24)
    (hmi1 : 0 ≤ mi) (hmi2 : mi < 60) (hs1 : 0 ≤ s) (hs2 : s < 60) :
    timeDate (fixedLoc c) y m d h mi s =
      daysFromCivil (normYM y m).1 (normYM y m).2 d * 86400 + (h * 3600 + mi * 60 + s) - c := by
  unfold timeDate
  rw [goNorm_id mi s 60 hs1 hs2]
  simp only [Prod.fst, Prod.snd]
  rw [goNorm_id h mi 60 hmi1 hmi2]
  simp only [Prod.fst, Prod.snd]
  rw [goNorm_id d h 24 hh1 hh2]
  simp only [Prod.fst, Prod.snd, fixedLoc]
  ring

/-- Evaluation of `time.Date` in a fixed-offset zone at a month already in
range. -/
theorem timeDate_fixed_valid (c y m d h mi s : Int) (hm1 : 1 ≤ m) (hm2 : m ≤ 12)
    (hh1 : 0 ≤ h) (hh2 : h < 24) (hmi1 : 0 ≤ mi) (hmi2 : mi < 60)
    (hs1 : 0 ≤ s) (hs2 : s < 60) :
    timeDate (fixedLoc c) y m d h mi s =
      daysFromCivil y m d * 86400 + (h * 3600 + mi * 60 + s) - c := by
  rw [timeDate_fixed c y m d h mi s hh1 hh2 hmi1 hmi2 hs1 hs2, normYM_eq y m hm1 hm2]

/-- Reading back the civil fields of an instant built from a valid date
and in-range clock fields in a fixed-offset zone. -/
theorem absGetCivil_fixed (c y m d h mi s : Int)
    (hm1 : 1 ≤ m) (hm2 : m ≤ 12) (hd1 : 1 ≤ d) (hd2 : d ≤ daysInMonth y m)
    (hh1 : 0 ≤ h) (hh2 : h < 24) (hmi1 : 0 ≤ mi) (hmi2 : mi < 60)
    (hs1 : 0 ≤ s) (hs2 : s < 60) :
    absGetCivil (fixedLoc c) (daysFromCivil y m d * 86400 + (h * 3600 + mi * 60 + s) - c) =
      ⟨y, m, d, h, mi, s⟩ := by
  unfold absGetCivil
  simp only [fixedLoc]
  have hlt : daysFromCivil y m d * 86400 + (h * 3600 + mi * 60 + s) - c + c =
      daysFromCivil y m d * 86400 + (h * 3600 + mi * 60 + s) := by ring
  rw [hlt]
  have hdiv : (daysFromCivil y m d * 86400 + (h * 3600 + mi * 60 + s)) / 86400 =
      daysFromCivil y m d := by omega
  have hmod : (daysFromCivil y m d * 86400 + (h * 3600 + mi * 60 + s)) % 86400 =
      h * 3600 + mi * 60 + s := by omega
  rw [hdiv, hmod, civil_roundtrip y m d hm1 hm2 hd1 hd2]
  simp only [CivilDateTime.mk.injEq]
  exact ⟨trivial, trivial, trivial, by omega, by omega, by omega⟩

/-- Every month of the Gregorian calendar has between 28 and 31 days. -/
theorem daysInMonth_bounds (y m : Int) :
    28 ≤ daysInMonth y m ∧ daysInMonth y m ≤ 31 := by
  simp only [daysInMonth]
  split_ifs <;> omega

/-- The epoch-day count is linear in the day argument. -/
theorem daysFromCivil_day_linear (y m d k : Int) :
    daysFromCivil y m (d + k) = daysFromCivil y m d + k := by
  simp only [daysFromCivil, doeOfYoe]
  ring

set_option maxHeartbeats 1000000 in
/-- Day 0 of the normalised next month is the last day of the current
month, for months in range. -/
theorem daysFromCivil_zero_next (y m : Int) (h1 : 1 ≤ m) (h2 : m ≤ 12) :
    daysFromCivil (normYM y (m + 1)).1 (normYM y (m + 1)).2 0 =
      daysFromCivil y m (daysInMonth y m) := by
  interval_cases m
  · rw [normYM_eq y (1 + 1) (by norm_num) (by norm_num)]
    simp only [daysFromCivil, doeOfYoe, daysInMonth]
    norm_num
  · rw [normYM_eq y (2 + 1) (by norm_num) (by norm_num)]
    simp only [daysFromCivil, doeOfYoe, daysInMonth]
    norm_num
    by_cases hL : (y % 4 = 0 ∧ ¬ y % 100 = 0) ∨ y % 400 = 0
    · rw [if_pos ((isLeapYear_iff y).mpr hL)]
      omega
    · rw [if_neg (fun hB => hL ((isLeapYear_iff y).mp hB))]
      omega
  · rw [normYM_eq y (3 + 1) (by norm_num) (by norm_num)]
    simp only [daysFromCivil, doeOfYoe, daysInMonth]
    norm_num
  · rw [normYM_eq y (4 + 1) (by norm_num) (by norm_num)]
    simp only [daysFromCivil, doeOfYoe, daysInMonth]
    norm_num
  · rw [normYM_eq y (5 + 1) (by norm_num) (by norm_num)]
    simp only [daysFromCivil, doeOfYoe, daysInMonth]
    norm_num
  · rw [normYM_eq y (6 + 1) (by norm_num) (by norm_num)]
    simp only [daysFromCivil, doeOfYoe, daysInMonth]
    norm_num
  · rw [normYM_eq y (7 + 1) (by norm_num) (by norm_num)]
    simp only [daysFromCivil, doeOfYoe, daysInMonth]
    norm_num
  · rw [normYM_eq y (8 + 1) (by norm_num) (by norm_num)]
    simp only [daysFromCivil, doeOfYoe, daysInMonth]
    norm_num
  · rw [normYM_eq y (9 + 1) (by norm_num) (by norm_num)]
    simp only [daysFromCivil, doeOfYoe, daysInMonth]
    norm_num
  · rw [normYM_eq y (10 + 1) (by norm_num) (by norm_num)]
    simp only [daysFromCivil, doeOfYoe, daysInMonth]
    norm_num
  · rw [normYM_eq y (11 + 1) (by norm_num) (by norm_num)]
    simp only [daysFromCivil, doeOfYoe, daysInMonth]
    norm_num
  · rw [show normYM y (12 + 1) = (y + 1, 1) from normYM_wrap_hi y]
    simp only [daysFromCivil, doeOfYoe, daysInMonth]
    norm_num

/-- The window reported by `helperEvaluateWindow` on every path: the
previous cycle when `now` precedes the potential start, else the cycle
starting at the potential start. -/
theorem helperEvaluateWindow_window (now ps dur : Int) (ls : LastSnapshotInfo) :
    (helperEvaluateWindow now ps dur ls).window =
      ⟨if now < ps then ps - dur else ps,
       (if now < ps then ps - dur else ps) + dur, now⟩ := by
  simp only [helperEvaluateWindow]
  split_ifs <;> rfl

/-- Characterisation of the take decision of `helperEvaluateWindow`:
a take happens exactly when `now` lies in the selected half-open window
and no non-zero prior snapshot time lies in it. -/
theorem helperEvaluateWindow_shouldSnapshot (now ps dur : Int) (ls : LastSnapshotInfo) :
    ((helperEvaluateWindow now ps dur ls).shouldSnapshot = true ↔
      ((if now < ps then ps - dur else ps) ≤ now ∧
       now < (if now < ps then ps - dur else ps) + dur ∧
       (ls.createdAt = goZeroTime ∨
         ¬((if now < ps then ps - dur else ps) ≤ ls.createdAt ∧
           ls.createdAt < (if now < ps then ps - dur else ps) + dur)))) := by
  simp only [helperEvaluateWindow, isZeroTime]
  by_cases hb : now < ps <;>
    simp only [if_pos, if_neg, hb, if_true, if_false, beq_iff_eq] <;>
    split_ifs <;>
    simp_all <;>
    omega

/-- Claim C1: for every reference time, potential start, positive duration
and prior-snapshot record, `helperEvaluateWindow` selects the window
`[potentialStart - duration, potentialStart)` when `now < potentialStart`
and `[potentialStart, potentialStart + duration)` otherwise, and returns a
take exactly when `now` lies in the half-open window (start inclusive) and
no prior snapshot with non-zero creation time lies in it; a zero creation
time never blocks. -/
theorem claim_C1_window_evaluator (now potentialStart duration : Int)
    (ls : LastSnapshotInfo) (hdur : 0 < duration) :
    ((helperEvaluateWindow now potentialStart duration ls).window.startTime =
        if now < potentialStart then potentialStart - duration else potentialStart) ∧
    ((helperEvaluateWindow now potentialStart duration ls).window.endTime =
        (helperEvaluateWindow now potentialStart duration ls).window.startTime + duration) ∧
    ((helperEvaluateWindow now potentialStart duration ls).shouldSnapshot = true ↔
      ((helperEvaluateWindow now potentialStart duration ls).window.startTime ≤ now ∧
       now < (helperEvaluateWindow now potentialStart duration ls).window.endTime ∧
       (ls.createdAt = goZeroTime ∨
         ¬((helperEvaluateWindow now potentialStart duration ls).window.startTime ≤ ls.createdAt ∧
           ls.createdAt < (helperEvaluateWindow now potentialStart duration ls).window.endTime)))) := by
  have hw := helperEvaluateWindow_window now potentialStart duration ls
  have hs := helperEvaluateWindow_shouldSnapshot now potentialStart duration ls
  rw [hw]
  exact ⟨rfl, rfl, hs⟩

/-- Witness for C1 at a concrete input: reference time 5, potential start
3, duration 6, no prior snapshot. -/
theorem claim_C1_window_evaluator_witness :
    (0 : Int) < 6 ∧
    (((helperEvaluateWindow 5 3 6 ⟨goZeroTime, "", "", []⟩).window.startTime =
        if (5 : Int) < 3 then 3 - 6 else 3) ∧
     ((helperEvaluateWindow 5 3 6 ⟨goZeroTime, "", "", []⟩).window.endTime =
        (helperEvaluateWindow 5 3 6 ⟨goZeroTime, "", "", []⟩).window.startTime + 6) ∧
     ((helperEvaluateWindow 5 3 6 ⟨goZeroTime, "", "", []⟩).shouldSnapshot = true ↔
       ((helperEvaluateWindow 5 3 6 ⟨goZeroTime, "", "", []⟩).window.startTime ≤ 5 ∧
        (5 : Int) < (helperEvaluateWindow 5 3 6 ⟨goZeroTime, "", "", []⟩).window.endTime ∧
        ((goZeroTime : Int) = goZeroTime ∨
          ¬((helperEvaluateWindow 5 3 6 ⟨goZeroTime, "", "", []⟩).window.startTime ≤ goZeroTime ∧
            goZeroTime < (helperEvaluateWindow 5 3 6 ⟨goZeroTime, "", "", []⟩).window.endTime))))) :=
  ⟨by norm_num, claim_C1_window_evaluator 5 3 6 ⟨goZeroTime, "", "", []⟩ (by norm_num)⟩

/-- Claim C5: the retry classifier declares exactly the HTTP codes 408,
429, 500, 503, 504 retryable, every other HTTP-status-coded error fatal,
every non-HTTP-coded error retryable; and an operation whose first failure
is non-retryable is invoked exactly once, its error returned unchanged,
for every retry budget. -/
theorem claim_C5_retry_classification :
    (∀ n : Int, isRetryable (.unexpectedResponseCode n) = true ↔
      (n = 408 ∨ n = 429 ∨ n = 500 ∨ n = 503 ∨ n = 504)) ∧
    (∀ e : GoError, findHTTPCode e = none → isRetryable e = true) ∧
    (∀ (op : Nat → Option GoError) (maxRetries : Nat) (e : GoError),
      op 0 = some e → isRetryable e = false →
      executeAction op maxRetries = ⟨1, some e⟩) := by
  refine ⟨?_, ?_, ?_⟩
  · intro n
    simp only [isRetryable, findHTTPCode]
    split_ifs with h
    · simp only [true_iff]
      tauto
    · simp only [false_iff]
      tauto
  · intro e h
    simp only [isRetryable, h]
  · intro op maxRetries e h1 h2
    simp [executeAction, executeActionFrom, h1, h2]

/-- Witness for C5 at a concrete input: a 404 response is fatal and the
operation runs exactly once with the error returned unchanged. -/
theorem claim_C5_retry_classification_witness :
    executeAction (fun _ => some (.unexpectedResponseCode 404)) 3 =
      ⟨1, some (.unexpectedResponseCode 404)⟩ :=
  claim_C5_retry_classification.2.2 (fun _ => some (.unexpectedResponseCode 404)) 3
    (.unexpectedResponseCode 404) rfl (by decide)

/-- Counterexample for C7: a negative interval (-1) does not make
`Normalize` return an error as the claim requires; it is coerced to the
default 6 exactly like 0. -/
theorem claim_C7_counterexample :
    (expressNormalize [] ⟨true, -1, 3, "rt", "", utcLoc, 0, 0⟩).toOption.map
      (fun p => p.intervalHours) = some 6 := by rfl

/-- Claim C7 (amended): every non-positive interval (0 or negative) is
coerced to the default 6, the values 6, 8 and 12 are accepted unchanged,
and every other positive value (including 24) makes `Normalize` return an
error. -/
theorem claim_C7_express_interval_normalization (db : List (String × GoLocation))
    (s : SnapshotPolicyExpress) (htz : s.timeZone = "") :
    (s.intervalHours ≤ 0 →
      (expressNormalize db s).toOption.map (fun p => p.intervalHours) = some 6) ∧
    ((s.intervalHours = 6 ∨ s.intervalHours = 8 ∨ s.intervalHours = 12) →
      (expressNormalize db s).toOption.map (fun p => p.intervalHours) = some s.intervalHours) ∧
    (0 < s.intervalHours →
      ¬(s.intervalHours = 6 ∨ s.intervalHours = 8 ∨ s.intervalHours = 12) →
      expressNormalize db s = .error "express interval must be 6, 8, or 12 hours") := by
  unfold expressNormalize helperNormalizeTimezone loadLocation
  rw [htz]
  refine ⟨?_, ?_, ?_⟩
  · intro h
    simp [Except.toOption, if_pos h]
  · intro h
    have hnp : ¬ s.intervalHours ≤ 0 := by rcases h with h | h | h <;> omega
    simp [Except.toOption, if_neg hnp, if_pos h]
  · intro h1 h2
    simp [Except.toOption, if_neg (by omega : ¬ s.intervalHours ≤ 0), if_neg h2,
      if_neg (by omega : ¬ s.intervalHours = 0)]

/-- Witness for C7 (amended) at a concrete input: interval 8 with an empty
timezone is accepted unchanged. -/
theorem claim_C7_express_interval_normalization_witness :
    ((8 : Int) = 6 ∨ (8 : Int) = 8 ∨ (8 : Int) = 12) ∧
    (expressNormalize [] ⟨true, 8, 3, "rt", "", utcLoc, 0, 0⟩).toOption.map
      (fun p => p.intervalHours) = some 8 :=
  ⟨by norm_num,
   (claim_C7_express_interval_normalization [] ⟨true, 8, 3, "rt", "", utcLoc, 0, 0⟩ rfl).2.1
     (by norm_num)⟩

/-- Counterexample for C8: the all-caps spelling "MONDAY" is rejected by
`helperNormalizeDay`, although the claim requires case-insensitive
acceptance of every spelling of a valid weekday. -/
theorem claim_C8_counterexample :
    helperNormalizeDay "MONDAY" = .error "invalid day MONDAY" := by rfl

/-- Claim C8 (amended): `helperNormalizeDay` accepts exactly the
capitalised full name, the capitalised three-letter abbreviation, their
all-lowercase forms, and the digit string of each weekday, with the empty
string defaulting to Sunday; every other spelling (in particular any other
letter case, such as all-caps) is rejected. -/
theorem claim_C8_day_spellings (s : String) (w : Int) :
    helperNormalizeDay s = .ok w ↔
      ((w = 0 ∧ (s = "Sunday" ∨ s = "Sun" ∨ s = "sun" ∨ s = "sunday" ∨ s = "0" ∨ s = "")) ∨
       (w = 1 ∧ (s = "Monday" ∨ s = "Mon" ∨ s = "mon" ∨ s = "monday" ∨ s = "1")) ∨
       (w = 2 ∧ (s = "Tuesday" ∨ s = "Tue" ∨ s = "tue" ∨ s = "tuesday" ∨ s = "2")) ∨
       (w = 3 ∧ (s = "Wednesday" ∨ s = "Wed" ∨ s = "wed" ∨ s = "wednesday" ∨ s = "3")) ∨
       (w = 4 ∧ (s = "Thursday" ∨ s = "Thu" ∨ s = "thu" ∨ s = "thursday" ∨ s = "4")) ∨
       (w = 5 ∧ (s = "Friday" ∨ s = "Fri" ∨ s = "fri" ∨ s = "friday" ∨ s = "5")) ∨
       (w = 6 ∧ (s = "Saturday" ∨ s = "Sat" ∨ s = "sat" ∨ s = "saturday" ∨ s = "6"))) := by
  by_cases hE : s = ""
  · subst hE
    simp [helperNormalizeDay]
    omega
  · simp only [helperNormalizeDay, if_neg hE]
    split_ifs with h1 h2 h3 h4 h5 h6 h7
    · rcases h1 with h | h | h | h | h <;> subst h <;> simp <;> omega
    · rcases h2 with h | h | h | h | h <;> subst h <;> simp <;> omega
    · rcases h3 with h | h | h | h | h <;> subst h <;> simp <;> omega
    · rcases h4 with h | h | h | h | h <;> subst h <;> simp <;> omega
    · rcases h5 with h | h | h | h | h <;> subst h <;> simp <;> omega
    · rcases h6 with h | h | h | h | h <;> subst h <;> simp <;> omega
    · rcases h7 with h | h | h | h | h <;> subst h <;> simp <;> omega
    · push_neg at h1 h2 h3 h4 h5 h6 h7
      simp_all

/-- Lookup after a single insert-or-overwrite. -/
theorem mapInsert_lookup (l : List (String × String)) (k v k2 : String) :
    (mapInsert l k v).lookup k2 = if k2 = k then some v else l.lookup k2 := by
  induction l with
  | nil =>
    by_cases h : k2 = k
    · simp [mapInsert, List.lookup, h]
    · have hb : (k2 == k) = false := beq_eq_false_iff_ne.mpr h
      simp [mapInsert, List.lookup, hb, h]
  | cons hd tl ih =>
    obtain ⟨k0, v0⟩ := hd
    by_cases h0 : k0 = k
    · subst h0
      by_cases h2 : k2 = k0
      · simp [mapInsert, List.lookup, h2]
      · have hb : (k2 == k0) = false := beq_eq_false_iff_ne.mpr h2
        simp [mapInsert, List.lookup, hb, h2]
    · by_cases h2 : k2 = k0
      · have hk : ¬ k2 = k := fun hh => h0 (h2.symm.trans hh)
        have hb0 : (k2 == k0) = true := by simp [h2]
        simp [mapInsert, if_neg h0, List.lookup, hb0, hk]
      · have hb0 : (k2 == k0) = false := beq_eq_false_iff_ne.mpr h2
        simp [mapInsert, if_neg h0, List.lookup, hb0, ih]

/-- Lookup misses every key not present in the list. -/
theorem lookup_none_of_not_mem (l : List (String × String)) (k : String)
    (h : ¬ k ∈ l.map Prod.fst) : l.lookup k = none := by
  induction l with
  | nil => rfl
  | cons hd tl ih =>
    obtain ⟨k0, v0⟩ := hd
    simp only [List.map_cons, List.mem_cons] at h
    push_neg at h
    have hb : (k == k0) = false := beq_eq_false_iff_ne.mpr h.1
    simp [List.lookup, hb, ih h.2]

/-- Keys absent from the source are untouched by `maps.Copy`. -/
theorem mapsCopy_lookup_not_mem (src : List (String × String)) :
    ∀ (dst : List (String × String)) (k : String), ¬ k ∈ src.map Prod.fst →
      (mapsCopy dst src).lookup k = dst.lookup k := by
  induction src with
  | nil => intro dst k _; rfl
  | cons hd tl ih =>
    intro dst k h
    obtain ⟨k0, v0⟩ := hd
    simp only [List.map_cons, List.mem_cons] at h
    push_neg at h
    have hstep : mapsCopy dst ((k0, v0) :: tl) = mapsCopy (mapInsert dst k0 v0) tl := rfl
    rw [hstep, ih _ k h.2, mapInsert_lookup, if_neg h.1]

/-- Lookup in the result of `maps.Copy` when the source has unique keys:
a key present in the source takes the source's value, an absent key keeps
the destination's value. -/
theorem mapsCopy_lookup (src : List (String × String)) :
    ∀ (dst : List (String × String)) (k : String), (src.map Prod.fst).Nodup →
      ((∀ v, src.lookup k = some v → (mapsCopy dst src).lookup k = some v) ∧
       (src.lookup k = none → (mapsCopy dst src).lookup k = dst.lookup k)) := by
  induction src with
  | nil =>
    intro dst k _
    exact ⟨fun v hv => by simp [List.lookup] at hv, fun _ => rfl⟩
  | cons hd tl ih =>
    intro dst k hnd
    obtain ⟨k0, v0⟩ := hd
    simp only [List.map_cons, List.nodup_cons] at hnd
    have hstep : mapsCopy dst ((k0, v0) :: tl) = mapsCopy (mapInsert dst k0 v0) tl := rfl
    constructor
    · intro v hv
      by_cases h2 : k = k0
      · subst h2
        have hvv : v0 = v := by simpa [List.lookup, beq_iff_eq] using hv
        rw [hstep, mapsCopy_lookup_not_mem tl _ k hnd.1, mapInsert_lookup, if_pos rfl, hvv]
      · have hb : (k == k0) = false := beq_eq_false_iff_ne.mpr h2
        have hv2 : tl.lookup k = some v := by
          simpa [List.lookup, hb] using hv
        rw [hstep]
        exact (ih (mapInsert dst k0 v0) k hnd.2).1 v hv2
    · intro hnone
      by_cases h2 : k = k0
      · subst h2
        simp [List.lookup] at hnone
      · have hb : (k == k0) = false := beq_eq_false_iff_ne.mpr h2
        have hn2 : tl.lookup k = none := by
          simpa [List.lookup, hb] using hnone
        rw [hstep, (ih (mapInsert dst k0 v0) k hnd.2).2 hn2, mapInsert_lookup, if_neg h2]

/-- Claim C9: the read-merge-write of the volume-metadata update writes
back a map in which every key absent from the patch keeps its current
value and every key of the patch takes the patch's value, for every
current metadata map (including a nil one) and every patch with the
unique keys of a Go map. -/
theorem claim_C9_read_merge_write (current : Option (List (String × String)))
    (patch : List (String × String)) (hnd : (patch.map Prod.fst).Nodup) (k : String) :
    (patch.lookup k = none →
      (createVolumeSubscriptionMerge current patch).lookup k = (current.getD []).lookup k) ∧
    (∀ v, patch.lookup k = some v →
      (createVolumeSubscriptionMerge current patch).lookup k = some v) := by
  have h := mapsCopy_lookup patch (current.getD []) k hnd
  exact ⟨h.2, h.1⟩

/-- Witness for C9 at a concrete input: patching key "b" over a two-key
map overwrites "b" and preserves "a". -/
theorem claim_C9_read_merge_write_witness :
    (([("b", "3")] : List (String × String)).map Prod.fst).Nodup ∧
    ((([("b", "3")] : List (String × String)).lookup "a" = none →
      (createVolumeSubscriptionMerge (some [("a", "1"), ("b", "2")]) [("b", "3")]).lookup "a" =
        ((some [("a", "1"), ("b", "2")] : Option (List (String × String))).getD []).lookup "a") ∧
     (∀ v, ([("b", "3")] : List (String × String)).lookup "a" = some v →
      (createVolumeSubscriptionMerge (some [("a", "1"), ("b", "2")]) [("b", "3")]).lookup "a" =
        some v)) :=
  ⟨by simp,
   claim_C9_read_merge_write (some [("a", "1"), ("b", "2")]) [("b", "3")] (by simp) "a"⟩

/-- Counterexample for C10: with a metadata map lacking the expiry key,
the reference time one second before the Go zero instant is non-zero, yet
the snapshot is skipped as "not expired", not deleted. -/
theorem claim_C10_counterexample :
    isZeroTime (goZeroTime - 1) = false ∧
    processSnapshotExpiry [("x-snapsentry-managed", "true")] (goZeroTime - 1) =
      .skipNotExpired := by
  constructor
  · decide
  · rfl

/-- Claim C10 (amended): a snapshot metadata map that lacks the
expiry-date key (and otherwise parses) yields a zero `ExpiryDate`, and for
every reference time at or after the zero instant `processSnapshotExpiry`
treats the snapshot as already expired and issues the deletion; only a
reference time before the zero instant (before year 1) skips it. -/
theorem claim_C10_missing_expiry_deletes (md : List (String × String)) (now : Int)
    (meta : SnapshotMetadata)
    (hkey : md.lookup "x-snapsentry-snapshot-expiry-date" = none)
    (hparse : parseSnapshotMetadataFromSDK md = .ok meta)
    (hnow : goZeroTime ≤ now) :
    meta.expiryDate = goZeroTime ∧
    processSnapshotExpiry md now = .deleteSnapshot := by
  have hexp : meta.expiryDate = goZeroTime := by
    unfold parseSnapshotMetadataFromSDK at hparse
    rw [hkey] at hparse
    repeat' split at hparse
    all_goals try dsimp only at hparse
    repeat' split at hparse
    all_goals try dsimp only at hparse
    all_goals
      first
      | exact Except.noConfusion hparse
      | (cases hparse; simp_all)
  refine ⟨hexp, ?_⟩
  unfold processSnapshotExpiry
  rw [hparse]
  show (if now < meta.expiryDate then ExpiryDecision.skipNotExpired
        else ExpiryDecision.deleteSnapshot) = ExpiryDecision.deleteSnapshot
  rw [if_neg (by omega)]

/-- Witness for C10 (amended) at a concrete input: a managed-tagged map
without an expiry key is deleted at the Unix epoch. -/
theorem claim_C10_missing_expiry_deletes_witness :
    SnapshotMetadata.expiryDate ⟨true, goZeroTime, "", 0⟩ = goZeroTime ∧
    processSnapshotExpiry [("x-snapsentry-managed", "true")] 0 = .deleteSnapshot :=
  claim_C10_missing_expiry_deletes [("x-snapsentry-managed", "true")] 0
    ⟨true, goZeroTime, "", 0⟩ rfl (by rfl) (by decide)

/-- Claim C4 (code bug): when the backend accepts the create request and
assigns the id "snap-123" but the wait step fails with a non-retryable
error, `CreateManagedSnapshot` returns the error together with the ZERO
snapshot value, whose id is empty, not "snap-123"; the caller's
orphan-cleanup check on a non-empty id therefore never fires after a
failed create. -/
theorem claim_C4_create_error_discards_id :
    (createManagedSnapshot
      (fun _ => ⟨"req-1", .ok ⟨"snap-123", "creating", 0, []⟩,
                 some (.unexpectedResponseCode 404)⟩) 3).2.2.isSome = true ∧
    (createManagedSnapshot
      (fun _ => ⟨"req-1", .ok ⟨"snap-123", "creating", 0, []⟩,
                 some (.unexpectedResponseCode 404)⟩) 3).1.id = "" ∧
    orphanCleanupFires
      (createManagedSnapshot
        (fun _ => ⟨"req-1", .ok ⟨"snap-123", "creating", 0, []⟩,
                   some (.unexpectedResponseCode 404)⟩) 3).1 = false := by
  refine ⟨by rfl, by rfl, by rfl⟩

/-- Claim C3 (code bug): serialising a snapshot-metadata record and
parsing it back is not the identity.  The managed flag is written under
the key `x-snapsentry-snapshot-managed` while the parser reads the struct
tag `x-snapsentry-managed`, so a managed record round-trips to an
unmanaged one; and a record with a zero expiry serialises the expiry to
the empty string, on which the parse errors instead of returning the
record. -/
theorem claim_C3_codec_not_symmetric :
    (snapshotMetadataToOpenstack
        ⟨true, daysFromCivil 2026 1 2 * 86400 + 3 * 3600 + 4 * 60 + 5, "daily", 2⟩ 0).lookup
      "x-snapsentry-snapshot-managed" = some "true" ∧
    (snapshotMetadataToOpenstack
        ⟨true, daysFromCivil 2026 1 2 * 86400 + 3 * 3600 + 4 * 60 + 5, "daily", 2⟩ 0).lookup
      "x-snapsentry-managed" = none ∧
    parseSnapshotMetadataFromSDK
      (snapshotMetadataToOpenstack
        ⟨true, daysFromCivil 2026 1 2 * 86400 + 3 * 3600 + 4 * 60 + 5, "daily", 2⟩ 0) =
      .ok ⟨false, daysFromCivil 2026 1 2 * 86400 + 3 * 3600 + 4 * 60 + 5, "daily", 2⟩ ∧
    parseSnapshotMetadataFromSDK
      (snapshotMetadataToOpenstack ⟨true, goZeroTime, "daily", 2⟩ 0) =
      .error "cannot parse as RFC3339 time: " := by
  refine ⟨by rfl, by rfl, by rfl, by rfl⟩

/-- Flooring the hour to a multiple of a positive interval stays within
`[0, hour]`. -/
theorem slot_le_self (h iv : Int) (hh : 0 ≤ h) (hiv : 0 < iv) :
    0 ≤ h / iv * iv ∧ h / iv * iv ≤ h := by
  constructor
  · exact mul_nonneg (Int.ediv_nonneg hh (le_of_lt hiv)) (le_of_lt hiv)
  · have h1 := Int.emod_nonneg h (by omega : iv ≠ 0)
    have h2 := Int.emod_def h iv
    calc h / iv * iv = iv * (h / iv) := mul_comm _ _
      _ ≤ h := by linarith

/-- Claim C2 (counterexample): in a zone with a spring-forward transition,
an express evaluation with retention 1 takes a snapshot whose expiry is
not `windowStart + 1 × 24h` — the hour lost to the transition is missing. -/
theorem claim_C2_counterexample :
    (expressEvaluate ⟨true, 6, 1, "", "DST",
        ⟨fun t => if t < 7200 then 0 else 3600, fun w => if w < 10800 then 0 else 3600⟩, 0, 0⟩
        3600 ⟨goZeroTime, "", "", []⟩).shouldSnapshot = true ∧
    (expressEvaluate ⟨true, 6, 1, "", "DST",
        ⟨fun t => if t < 7200 then 0 else 3600, fun w => if w < 10800 then 0 else 3600⟩, 0, 0⟩
        3600 ⟨goZeroTime, "", "", []⟩).metadata.expiryDate ≠
      (expressEvaluate ⟨true, 6, 1, "", "DST",
        ⟨fun t => if t < 7200 then 0 else 3600, fun w => if w < 10800 then 0 else 3600⟩, 0, 0⟩
        3600 ⟨goZeroTime, "", "", []⟩).window.startTime + 1 * 86400 :=
  ⟨by rfl, by decide⟩

/-- Go's `time.Date` only consumes the year and month through their
normalisation: two year/month pairs with the same normalisation give the
same instant. -/
theorem timeDate_normYM_congr (loc : GoLocation) (y1 m1 y2 m2 d h mi s : Int)
    (hnm : normYM y1 m1 = normYM y2 m2) :
    timeDate loc y1 m1 d h mi s = timeDate loc y2 m2 d h mi s := by
  simp only [timeDate, hnm]

/-- The monthly anchor `helperGetMonthlyDate` only consumes the year and
month through their normalisation. -/
theorem helperGetMonthlyDate_congr (loc : GoLocation) (y1 m1 y2 m2 td h mi : Int)
    (hnm : normYM y1 m1 = normYM y2 m2) :
    helperGetMonthlyDate loc y1 m1 td h mi = helperGetMonthlyDate loc y2 m2 td h mi := by
  have hcong : ∀ d0, timeDate loc y1 m1 d0 h mi 0 = timeDate loc y2 m2 d0 h mi 0 :=
    fun d0 => timeDate_normYM_congr loc y1 m1 y2 m2 d0 h mi 0 hnm
  simp only [helperGetMonthlyDate, hcong]

/-- Claim C6: in a fixed-offset zone, the monthly anchor's calendar day is
the requested day clamped to the (normalised) month's length — in
particular a requested day beyond the month's end lands on the last day —
and the month-1 / month+1 anchors used by the monthly evaluation wrap
across year boundaries exactly as December of the previous year and
January of the next. -/
theorem claim_C6_monthly_clamp (c year month targetDay hh mm2 : Int)
    (hd : 1 ≤ targetDay) (hh1 : 0 ≤ hh) (hh2 : hh < 24)
    (hmm1 : 0 ≤ mm2) (hmm2 : mm2 < 60) :
    timeDay (fixedLoc c) (helperGetMonthlyDate (fixedLoc c) year month targetDay hh mm2) =
      min targetDay (daysInMonth (normYM year month).1 (normYM year month).2) ∧
    helperGetMonthlyDate (fixedLoc c) year 0 targetDay hh mm2 =
      helperGetMonthlyDate (fixedLoc c) (year - 1) 12 targetDay hh mm2 ∧
    helperGetMonthlyDate (fixedLoc c) year 13 targetDay hh mm2 =
      helperGetMonthlyDate (fixedLoc c) (year + 1) 1 targetDay hh mm2 := by
  obtain ⟨hM1, hM2, _⟩ := normYM_bounds year month
  obtain ⟨hdim1, hdim2⟩ :=
    daysInMonth_bounds (normYM year month).1 (normYM year month).2
  refine ⟨?_, ?_, ?_⟩
  · have hfirst : timeDate (fixedLoc c) year month 1 hh mm2 0 =
        daysFromCivil (normYM year month).1 (normYM year month).2 1 * 86400 +
          (hh * 3600 + mm2 * 60 + 0) - c :=
      timeDate_fixed c year month 1 hh mm2 0 hh1 hh2 hmm1 hmm2 (by norm_num) (by norm_num)
    have habs1 : absGetCivil (fixedLoc c) (timeDate (fixedLoc c) year month 1 hh mm2 0) =
        ⟨(normYM year month).1, (normYM year month).2, 1, hh, mm2, 0⟩ := by
      rw [hfirst]
      exact absGetCivil_fixed c (normYM year month).1 (normYM year month).2 1 hh mm2 0
        hM1 hM2 (by norm_num) (by omega) hh1 hh2 hmm1 hmm2 (by norm_num) (by norm_num)
    have hlast : addDate (fixedLoc c) (timeDate (fixedLoc c) year month 1 hh mm2 0) 0 1 (-1) =
        daysFromCivil (normYM year month).1 (normYM year month).2
          (daysInMonth (normYM year month).1 (normYM year month).2) * 86400 +
          (hh * 3600 + mm2 * 60 + 0) - c := by
      simp only [addDate, habs1, add_zero]
      rw [show (1 : Int) + -1 = 0 by norm_num]
      rw [timeDate_fixed c (normYM year month).1 ((normYM year month).2 + 1) 0 hh mm2 0
        hh1 hh2 hmm1 hmm2 (by norm_num) (by norm_num)]
      rw [daysFromCivil_zero_next (normYM year month).1 (normYM year month).2 hM1 hM2]
      ring
    have hday : timeDay (fixedLoc c)
        (addDate (fixedLoc c) (timeDate (fixedLoc c) year month 1 hh mm2 0) 0 1 (-1)) =
        daysInMonth (normYM year month).1 (normYM year month).2 := by
      simp only [timeDay]
      rw [hlast]
      rw [absGetCivil_fixed c (normYM year month).1 (normYM year month).2
        (daysInMonth (normYM year month).1 (normYM year month).2) hh mm2 0
        hM1 hM2 (by omega) (le_refl _) hh1 hh2 hmm1 hmm2 (by norm_num) (by norm_num)]
    simp only [helperGetMonthlyDate]
    rw [hday]
    by_cases hcl : targetDay > daysInMonth (normYM year month).1 (normYM year month).2
    · rw [if_pos hcl]
      simp only [timeDay]
      rw [timeDate_fixed c year month
        (daysInMonth (normYM year month).1 (normYM year month).2) hh mm2 0
        hh1 hh2 hmm1 hmm2 (by norm_num) (by norm_num)]
      rw [absGetCivil_fixed c (normYM year month).1 (normYM year month).2
        (daysInMonth (normYM year month).1 (normYM year month).2) hh mm2 0
        hM1 hM2 (by omega) (le_refl _) hh1 hh2 hmm1 hmm2 (by norm_num) (by norm_num)]
      show daysInMonth (normYM year month).1 (normYM year month).2 =
        min targetDay (daysInMonth (normYM year month).1 (normYM year month).2)
      omega
    · rw [if_neg hcl]
      simp only [timeDay]
      rw [timeDate_fixed c year month targetDay hh mm2 0
        hh1 hh2 hmm1 hmm2 (by norm_num) (by norm_num)]
      rw [absGetCivil_fixed c (normYM year month).1 (normYM year month).2
        targetDay hh mm2 0 hM1 hM2 hd (by omega) hh1 hh2 hmm1 hmm2
        (by norm_num) (by norm_num)]
      show targetDay =
        min targetDay (daysInMonth (normYM year month).1 (normYM year month).2)
      omega
  · exact helperGetMonthlyDate_congr (fixedLoc c) year 0 (year - 1) 12 targetDay hh mm2
      (by rw [normYM_wrap_lo, normYM_eq (year - 1) 12 (by norm_num) (by norm_num)])
  · exact helperGetMonthlyDate_congr (fixedLoc c) year 13 (year + 1) 1 targetDay hh mm2
      (by rw [normYM_wrap_hi, normYM_eq (year + 1) 1 (by norm_num) (by norm_num)])

/-- Witness for claim C6 at February 2025 with requested day 31: the
anchor's day is clamped to 28, and the year-wrap equalities hold at 2025. -/
theorem claim_C6_monthly_clamp_witness :
    timeDay (fixedLoc 0) (helperGetMonthlyDate (fixedLoc 0) 2025 2 31 14 0) =
      min 31 (daysInMonth (normYM 2025 2).1 (normYM 2025 2).2) ∧
    helperGetMonthlyDate (fixedLoc 0) 2025 0 31 14 0 =
      helperGetMonthlyDate (fixedLoc 0) 2024 12 31 14 0 ∧
    helperGetMonthlyDate (fixedLoc 0) 2025 13 31 14 0 =
      helperGetMonthlyDate (fixedLoc 0) 2026 1 31 14 0 :=
  claim_C6_monthly_clamp 0 2025 2 31 14 0 (by norm_num) (by norm_num) (by norm_num)
    (by norm_num) (by norm_num)

/-- The epoch-day count is an affine function of the day argument. -/
theorem daysFromCivil_linear2 (y m a b : Int) :
    daysFromCivil y m a = daysFromCivil y m b + (a - b) := by
  simp only [daysFromCivil, doeOfYoe]
  ring

/-- Day 0 of a month in range is the last day of the normalised previous
month. -/
theorem daysFromCivil_prev_month (y m : Int) (hm1 : 1 ≤ m) (hm2 : m ≤ 12) :
    daysFromCivil y m 0 =
      daysFromCivil (normYM y (m - 1)).1 (normYM y (m - 1)).2
        (daysInMonth (normYM y (m - 1)).1 (normYM y (m - 1)).2) := by
  by_cases hm : 2 ≤ m
  · rw [normYM_eq y (m - 1) (by omega) (by omega)]
    have h5 := daysFromCivil_zero_next y (m - 1) (by omega) (by omega)
    rw [show m - 1 + 1 = m by ring] at h5
    rw [normYM_eq y m hm1 hm2] at h5
    exact h5
  · have hme : m = 1 := by omega
    subst hme
    rw [show (1 : Int) - 1 = 0 by norm_num, normYM_wrap_lo y]
    have h5 := daysFromCivil_zero_next (y - 1) 12 (by norm_num) (by norm_num)
    rw [show (12 : Int) + 1 = 13 by norm_num] at h5
    rw [normYM_wrap_hi (y - 1)] at h5
    rw [show y - 1 + 1 = y by ring] at h5
    exact h5

/-- Shifting a valid calendar day by at most 27 days lands on a valid day
of the same or an adjacent month: the shifted epoch-day count is the
count of a valid civil date. -/
theorem civil_day_shift (y m d k : Int) (hm1 : 1 ≤ m) (hm2 : m ≤ 12)
    (hd1 : 1 ≤ d) (hd2 : d ≤ daysInMonth y m) (hk1 : -27 ≤ k) (hk2 : k ≤ 27) :
    ∃ Y M D : Int, (1 ≤ M ∧ M ≤ 12 ∧ 1 ≤ D ∧ D ≤ daysInMonth Y M) ∧
      daysFromCivil y m (d + k) = daysFromCivil Y M D := by
  obtain ⟨hpm1, hpm2, _⟩ := normYM_bounds y (m - 1)
  obtain ⟨hnm1, hnm2, _⟩ := normYM_bounds y (m + 1)
  obtain ⟨hdc1, hdc2⟩ := daysInMonth_bounds y m
  obtain ⟨hdp1, hdp2⟩ := daysInMonth_bounds (normYM y (m - 1)).1 (normYM y (m - 1)).2
  obtain ⟨hdn1, hdn2⟩ := daysInMonth_bounds (normYM y (m + 1)).1 (normYM y (m + 1)).2
  by_cases hlo : d + k ≤ 0
  · refine ⟨(normYM y (m - 1)).1, (normYM y (m - 1)).2,
      daysInMonth (normYM y (m - 1)).1 (normYM y (m - 1)).2 + (d + k),
      ⟨hpm1, hpm2, by omega, by omega⟩, ?_⟩
    have h3 := daysFromCivil_linear2 y m (d + k) 0
    have h4 := daysFromCivil_linear2 (normYM y (m - 1)).1 (normYM y (m - 1)).2
      (daysInMonth (normYM y (m - 1)).1 (normYM y (m - 1)).2 + (d + k))
      (daysInMonth (normYM y (m - 1)).1 (normYM y (m - 1)).2)
    have h5 := daysFromCivil_prev_month y m hm1 hm2
    omega
  · by_cases hhi : d + k ≤ daysInMonth y m
    · exact ⟨y, m, d + k, ⟨hm1, hm2, by omega, hhi⟩, rfl⟩
    · refine ⟨(normYM y (m + 1)).1, (normYM y (m + 1)).2, d + k - daysInMonth y m,
        ⟨hnm1, hnm2, by omega, by omega⟩, ?_⟩
      have h3 := daysFromCivil_linear2 y m (d + k) (daysInMonth y m)
      have h4 := daysFromCivil_linear2 (normYM y (m + 1)).1 (normYM y (m + 1)).2
        (d + k - daysInMonth y m) 0
      have h5 := daysFromCivil_zero_next y m hm1 hm2
      omega

/-- Go's `AddDate(0, 0, r)` on an instant built from a valid civil date
and in-range clock fields in a fixed-offset zone adds exactly
`r × 86400` seconds. -/
theorem expiry_addDate_fixed (c Y M D H Mi S r : Int)
    (hm1 : 1 ≤ M) (hm2 : M ≤ 12) (hd1 : 1 ≤ D) (hd2 : D ≤ daysInMonth Y M)
    (hh1 : 0 ≤ H) (hh2 : H < 24) (hmi1 : 0 ≤ Mi) (hmi2 : Mi < 60)
    (hs1 : 0 ≤ S) (hs2 : S < 60) :
    addDate (fixedLoc c) (daysFromCivil Y M D * 86400 + (H * 3600 + Mi * 60 + S) - c) 0 0 r =
      daysFromCivil Y M D * 86400 + (H * 3600 + Mi * 60 + S) - c + r * 86400 := by
  simp only [addDate,
    absGetCivil_fixed c Y M D H Mi S hm1 hm2 hd1 hd2 hh1 hh2 hmi1 hmi2 hs1 hs2, add_zero]
  rw [timeDate_fixed_valid c Y M (D + r) H Mi S hm1 hm2 hh1 hh2 hmi1 hmi2 hs1 hs2]
  rw [daysFromCivil_day_linear Y M D r]
  ring

/-- Evaluation of the monthly anchor in a fixed-offset zone: the anchor
is the normalised month's clamped day at the configured start time. -/
theorem helperGetMonthlyDate_fixed (c Y Mo td sh sm : Int)
    (hsh1 : 0 ≤ sh) (hsh2 : sh < 24) (hsm1 : 0 ≤ sm) (hsm2 : sm < 60) :
    helperGetMonthlyDate (fixedLoc c) Y Mo td sh sm =
      daysFromCivil (normYM Y Mo).1 (normYM Y Mo).2
        (min td (daysInMonth (normYM Y Mo).1 (normYM Y Mo).2)) * 86400 +
        (sh * 3600 + sm * 60 + 0) - c := by
  obtain ⟨hM1, hM2, _⟩ := normYM_bounds Y Mo
  obtain ⟨hdim1, hdim2⟩ := daysInMonth_bounds (normYM Y Mo).1 (normYM Y Mo).2
  have hfirst : timeDate (fixedLoc c) Y Mo 1 sh sm 0 =
      daysFromCivil (normYM Y Mo).1 (normYM Y Mo).2 1 * 86400 +
        (sh * 3600 + sm * 60 + 0) - c :=
    timeDate_fixed c Y Mo 1 sh sm 0 hsh1 hsh2 hsm1 hsm2 (by norm_num) (by norm_num)
  have habs1 : absGetCivil (fixedLoc c) (timeDate (fixedLoc c) Y Mo 1 sh sm 0) =
      ⟨(normYM Y Mo).1, (normYM Y Mo).2, 1, sh, sm, 0⟩ := by
    rw [hfirst]
    exact absGetCivil_fixed c (normYM Y Mo).1 (normYM Y Mo).2 1 sh sm 0
      hM1 hM2 (by norm_num) (by omega) hsh1 hsh2 hsm1 hsm2 (by norm_num) (by norm_num)
  have hlast : addDate (fixedLoc c) (timeDate (fixedLoc c) Y Mo 1 sh sm 0) 0 1 (-1) =
      daysFromCivil (normYM Y Mo).1 (normYM Y Mo).2
        (daysInMonth (normYM Y Mo).1 (normYM Y Mo).2) * 86400 +
        (sh * 3600 + sm * 60 + 0) - c := by
    simp only [addDate, habs1, add_zero]
    rw [show (1 : Int) + -1 = 0 by norm_num]
    rw [timeDate_fixed c (normYM Y Mo).1 ((normYM Y Mo).2 + 1) 0 sh sm 0
      hsh1 hsh2 hsm1 hsm2 (by norm_num) (by norm_num)]
    rw [daysFromCivil_zero_next (normYM Y Mo).1 (normYM Y Mo).2 hM1 hM2]
    ring
  have hday : timeDay (fixedLoc c)
      (addDate (fixedLoc c) (timeDate (fixedLoc c) Y Mo 1 sh sm 0) 0 1 (-1)) =
      daysInMonth (normYM Y Mo).1 (normYM Y Mo).2 := by
    simp only [timeDay]
    rw [hlast]
    rw [absGetCivil_fixed c (normYM Y Mo).1 (normYM Y Mo).2
      (daysInMonth (normYM Y Mo).1 (normYM Y Mo).2) sh sm 0
      hM1 hM2 (by omega) (le_refl _) hsh1 hsh2 hsm1 hsm2 (by norm_num) (by norm_num)]
  simp only [helperGetMonthlyDate]
  rw [hday]
  by_cases hcl : td > daysInMonth (normYM Y Mo).1 (normYM Y Mo).2
  · rw [if_pos hcl]
    rw [timeDate_fixed c Y Mo (daysInMonth (normYM Y Mo).1 (normYM Y Mo).2) sh sm 0
      hsh1 hsh2 hsm1 hsm2 (by norm_num) (by norm_num)]
    rw [min_eq_right (le_of_lt hcl)]
  · rw [if_neg hcl]
    rw [timeDate_fixed c Y Mo td sh sm 0 hsh1 hsh2 hsm1 hsm2 (by norm_num) (by norm_num)]
    rw [min_eq_left (by omega)]

/-- Expiry invariant of the daily evaluation in a fixed-offset zone: on a
take, the expiry is the window start plus retention days of 86400
seconds. -/
theorem dailyEvaluate_expiry (c y m d h mi s sh sm r : Int) (rt tz st : String)
    (ls : LastSnapshotInfo)
    (hm1 : 1 ≤ m) (hm2 : m ≤ 12) (hd1 : 1 ≤ d) (hd2 : d ≤ daysInMonth y m)
    (hh1 : 0 ≤ h) (hh2 : h < 24) (hmi1 : 0 ≤ mi) (hmi2 : mi < 60)
    (hs1 : 0 ≤ s) (hs2 : s < 60)
    (hsh1 : 0 ≤ sh) (hsh2 : sh < 24) (hsm1 : 0 ≤ sm) (hsm2 : sm < 60)
    (hr : 1 ≤ r)
    (hshould : (dailyEvaluate ⟨true, r, rt, tz, st, fixedLoc c, sh, sm⟩
        (timeDate (fixedLoc c) y m d h mi s) ls).shouldSnapshot = true) :
    (dailyEvaluate ⟨true, r, rt, tz, st, fixedLoc c, sh, sm⟩
        (timeDate (fixedLoc c) y m d h mi s) ls).metadata.expiryDate =
      (dailyEvaluate ⟨true, r, rt, tz, st, fixedLoc c, sh, sm⟩
        (timeDate (fixedLoc c) y m d h mi s) ls).window.startTime + r * 86400 ∧
    (dailyEvaluate ⟨true, r, rt, tz, st, fixedLoc c, sh, sm⟩
        (timeDate (fixedLoc c) y m d h mi s) ls).window.startTime <
      (dailyEvaluate ⟨true, r, rt, tz, st, fixedLoc c, sh, sm⟩
        (timeDate (fixedLoc c) y m d h mi s) ls).metadata.expiryDate := by
  have hnow : timeDate (fixedLoc c) y m d h mi s =
      daysFromCivil y m d * 86400 + (h * 3600 + mi * 60 + s) - c :=
    timeDate_fixed_valid c y m d h mi s hm1 hm2 hh1 hh2 hmi1 hmi2 hs1 hs2
  have hcd : absGetCivil (fixedLoc c) (timeDate (fixedLoc c) y m d h mi s) =
      ⟨y, m, d, h, mi, s⟩ := by
    rw [hnow]
    exact absGetCivil_fixed c y m d h mi s hm1 hm2 hd1 hd2 hh1 hh2 hmi1 hmi2 hs1 hs2
  have hPSf : timeDate (fixedLoc c) y m d sh sm 0 =
      daysFromCivil y m d * 86400 + (sh * 3600 + sm * 60 + 0) - c :=
    timeDate_fixed_valid c y m d sh sm 0 hm1 hm2 hsh1 hsh2 hsm1 hsm2 (by norm_num) (by norm_num)
  unfold dailyEvaluate at hshould ⊢
  rw [if_neg (show ¬ ¬ ((⟨true, r, rt, tz, st, fixedLoc c, sh, sm⟩ :
      SnapshotPolicyDaily).enabled = true) from fun hn => hn rfl)] at hshould ⊢
  simp only [hcd] at hshould ⊢
  set PS := timeDate (fixedLoc c) y m d sh sm 0 with hPSd
  set R := helperEvaluateWindow (timeDate (fixedLoc c) y m d h mi s) PS (24 * 3600) ls with hRd
  by_cases hres : R.shouldSnapshot = true
  · rw [if_neg (not_not_intro hres)] at hshould ⊢
    have hwin := helperEvaluateWindow_window (timeDate (fixedLoc c) y m d h mi s)
      PS (24 * 3600) ls
    by_cases hlt : timeDate (fixedLoc c) y m d h mi s < PS
    · rw [if_pos hlt] at hwin
      rw [← hRd] at hwin
      have hst : R.window.startTime = PS - 24 * 3600 := by rw [hwin]
      obtain ⟨Y2, M2, D2, ⟨hv1, hv2, hv3, hv4⟩, heq2⟩ :=
        civil_day_shift y m d (-1) hm1 hm2 hd1 hd2 (by norm_num) (by norm_num)
      have hform : PS - 24 * 3600 =
          daysFromCivil Y2 M2 D2 * 86400 + (sh * 3600 + sm * 60 + 0) - c := by
        rw [hPSf, ← heq2]
        have hl := daysFromCivil_linear2 y m (d + -1) d
        omega
      dsimp only
      rw [hst, hform, expiry_addDate_fixed c Y2 M2 D2 sh sm 0 r hv1 hv2 hv3 hv4
        hsh1 hsh2 hsm1 hsm2 (by norm_num) (by norm_num)]
      exact ⟨rfl, by omega⟩
    · rw [if_neg hlt] at hwin
      rw [← hRd] at hwin
      have hst : R.window.startTime = PS := by rw [hwin]
      dsimp only
      rw [hst, hPSf, expiry_addDate_fixed c y m d sh sm 0 r hm1 hm2 hd1 hd2
        hsh1 hsh2 hsm1 hsm2 (by norm_num) (by norm_num)]
      exact ⟨rfl, by omega⟩
  · rw [if_pos hres] at hshould
    exact absurd hshould hres

/-- Expiry invariant of the weekly evaluation in a fixed-offset zone: on
a take, the expiry is the window start plus retention days of 86400
seconds. -/
theorem weeklyEvaluate_expiry (c y m d h mi s sh sm w r : Int) (rt tz st dw : String)
    (ls : LastSnapshotInfo)
    (hm1 : 1 ≤ m) (hm2 : m ≤ 12) (hd1 : 1 ≤ d) (hd2 : d ≤ daysInMonth y m)
    (hh1 : 0 ≤ h) (hh2 : h < 24) (hmi1 : 0 ≤ mi) (hmi2 : mi < 60)
    (hs1 : 0 ≤ s) (hs2 : s < 60)
    (hsh1 : 0 ≤ sh) (hsh2 : sh < 24) (hsm1 : 0 ≤ sm) (hsm2 : sm < 60)
    (hw1 : 0 ≤ w) (hw2 : w ≤ 6) (hr : 1 ≤ r)
    (hshould : (weeklyEvaluate ⟨true, r, rt, tz, st, dw, fixedLoc c, sh, sm, w⟩
        (timeDate (fixedLoc c) y m d h mi s) ls).shouldSnapshot = true) :
    (weeklyEvaluate ⟨true, r, rt, tz, st, dw, fixedLoc c, sh, sm, w⟩
        (timeDate (fixedLoc c) y m d h mi s) ls).metadata.expiryDate =
      (weeklyEvaluate ⟨true, r, rt, tz, st, dw, fixedLoc c, sh, sm, w⟩
        (timeDate (fixedLoc c) y m d h mi s) ls).window.startTime + r * 86400 ∧
    (weeklyEvaluate ⟨true, r, rt, tz, st, dw, fixedLoc c, sh, sm, w⟩
        (timeDate (fixedLoc c) y m d h mi s) ls).window.startTime <
      (weeklyEvaluate ⟨true, r, rt, tz, st, dw, fixedLoc c, sh, sm, w⟩
        (timeDate (fixedLoc c) y m d h mi s) ls).metadata.expiryDate := by
  have hnow : timeDate (fixedLoc c) y m d h mi s =
      daysFromCivil y m d * 86400 + (h * 3600 + mi * 60 + s) - c :=
    timeDate_fixed_valid c y m d h mi s hm1 hm2 hh1 hh2 hmi1 hmi2 hs1 hs2
  have hcd : absGetCivil (fixedLoc c) (timeDate (fixedLoc c) y m d h mi s) =
      ⟨y, m, d, h, mi, s⟩ := by
    rw [hnow]
    exact absGetCivil_fixed c y m d h mi s hm1 hm2 hd1 hd2 hh1 hh2 hmi1 hmi2 hs1 hs2
  have hcw : timeWeekday (fixedLoc c) (timeDate (fixedLoc c) y m d h mi s) =
      (daysFromCivil y m d + 4) % 7 := by
    have hoff : (fixedLoc c).offsetAt (timeDate (fixedLoc c) y m d h mi s) = c := rfl
    simp only [timeWeekday, hoff]
    rw [hnow]
    have hdive : (daysFromCivil y m d * 86400 + (h * 3600 + mi * 60 + s) - c + c) / 86400 =
        daysFromCivil y m d := by omega
    rw [hdive]
  unfold weeklyEvaluate at hshould ⊢
  rw [if_neg (show ¬ ¬ ((⟨true, r, rt, tz, st, dw, fixedLoc c, sh, sm, w⟩ :
      SnapshotPolicyWeekly).enabled = true) from fun hn => hn rfl)] at hshould ⊢
  simp only [hcw] at hshould ⊢
  set K := w - (daysFromCivil y m d + 4) % 7 with hK
  have hK1 : -6 ≤ K := by rw [hK]; omega
  have hK2 : K ≤ 6 := by rw [hK]; omega
  obtain ⟨Y2, M2, D2, ⟨hv1, hv2, hv3, hv4⟩, heq2⟩ :=
    civil_day_shift y m d K hm1 hm2 hd1 hd2 (by omega) (by omega)
  have haligned : addDate (fixedLoc c) (timeDate (fixedLoc c) y m d h mi s) 0 0 K =
      daysFromCivil Y2 M2 D2 * 86400 + (h * 3600 + mi * 60 + s) - c := by
    simp only [addDate, hcd, add_zero]
    rw [timeDate_fixed_valid c y m (d + K) h mi s hm1 hm2 hh1 hh2 hmi1 hmi2 hs1 hs2, heq2]
  have habs2 : absGetCivil (fixedLoc c)
      (addDate (fixedLoc c) (timeDate (fixedLoc c) y m d h mi s) 0 0 K) =
      ⟨Y2, M2, D2, h, mi, s⟩ := by
    rw [haligned]
    exact absGetCivil_fixed c Y2 M2 D2 h mi s hv1 hv2 hv3 hv4 hh1 hh2 hmi1 hmi2 hs1 hs2
  simp only [habs2] at hshould ⊢
  have hPSf : timeDate (fixedLoc c) Y2 M2 D2 sh sm 0 =
      daysFromCivil Y2 M2 D2 * 86400 + (sh * 3600 + sm * 60 + 0) - c :=
    timeDate_fixed_valid c Y2 M2 D2 sh sm 0 hv1 hv2 hsh1 hsh2 hsm1 hsm2
      (by norm_num) (by norm_num)
  set PS := timeDate (fixedLoc c) Y2 M2 D2 sh sm 0 with hPSd
  set R := helperEvaluateWindow (timeDate (fixedLoc c) y m d h mi s) PS (7 * 86400) ls with hRd
  by_cases hres : R.shouldSnapshot = true
  · rw [if_neg (not_not_intro hres)] at hshould ⊢
    have hwin := helperEvaluateWindow_window (timeDate (fixedLoc c) y m d h mi s)
      PS (7 * 86400) ls
    by_cases hlt : timeDate (fixedLoc c) y m d h mi s < PS
    · rw [if_pos hlt] at hwin
      rw [← hRd] at hwin
      have hst : R.window.startTime = PS - 7 * 86400 := by rw [hwin]
      obtain ⟨Y3, M3, D3, ⟨hx1, hx2, hx3, hx4⟩, heq3⟩ :=
        civil_day_shift Y2 M2 D2 (-7) hv1 hv2 hv3 hv4 (by norm_num) (by norm_num)
      have hform : PS - 7 * 86400 =
          daysFromCivil Y3 M3 D3 * 86400 + (sh * 3600 + sm * 60 + 0) - c := by
        rw [hPSf, ← heq3]
        have hl := daysFromCivil_linear2 Y2 M2 (D2 + -7) D2
        omega
      dsimp only
      rw [hst, hform, expiry_addDate_fixed c Y3 M3 D3 sh sm 0 r hx1 hx2 hx3 hx4
        hsh1 hsh2 hsm1 hsm2 (by norm_num) (by norm_num)]
      exact ⟨rfl, by omega⟩
    · rw [if_neg hlt] at hwin
      rw [← hRd] at hwin
      have hst : R.window.startTime = PS := by rw [hwin]
      dsimp only
      rw [hst, hPSf, expiry_addDate_fixed c Y2 M2 D2 sh sm 0 r hv1 hv2 hv3 hv4
        hsh1 hsh2 hsm1 hsm2 (by norm_num) (by norm_num)]
      exact ⟨rfl, by omega⟩
  · rw [if_pos hres] at hshould
    exact absurd hshould hres

/-- Expiry invariant of the monthly evaluation in a fixed-offset zone: on
a take, the expiry is the window start plus retention days of 86400
seconds. -/
theorem monthlyEvaluate_expiry (c y m d h mi s sh sm td r : Int) (rt tz st : String)
    (ls : LastSnapshotInfo)
    (hm1 : 1 ≤ m) (hm2 : m ≤ 12) (hd1 : 1 ≤ d) (hd2 : d ≤ daysInMonth y m)
    (hh1 : 0 ≤ h) (hh2 : h < 24) (hmi1 : 0 ≤ mi) (hmi2 : mi < 60)
    (hs1 : 0 ≤ s) (hs2 : s < 60)
    (hsh1 : 0 ≤ sh) (hsh2 : sh < 24) (hsm1 : 0 ≤ sm) (hsm2 : sm < 60)
    (htd : 1 ≤ td) (hr : 1 ≤ r)
    (hshould : (monthlyEvaluate ⟨true, r, rt, tz, st, td, fixedLoc c, sh, sm⟩
        (timeDate (fixedLoc c) y m d h mi s) ls).shouldSnapshot = true) :
    (monthlyEvaluate ⟨true, r, rt, tz, st, td, fixedLoc c, sh, sm⟩
        (timeDate (fixedLoc c) y m d h mi s) ls).metadata.expiryDate =
      (monthlyEvaluate ⟨true, r, rt, tz, st, td, fixedLoc c, sh, sm⟩
        (timeDate (fixedLoc c) y m d h mi s) ls).window.startTime + r * 86400 ∧
    (monthlyEvaluate ⟨true, r, rt, tz, st, td, fixedLoc c, sh, sm⟩
        (timeDate (fixedLoc c) y m d h mi s) ls).window.startTime <
      (monthlyEvaluate ⟨true, r, rt, tz, st, td, fixedLoc c, sh, sm⟩
        (timeDate (fixedLoc c) y m d h mi s) ls).metadata.expiryDate := by
  have hnow : timeDate (fixedLoc c) y m d h mi s =
      daysFromCivil y m d * 86400 + (h * 3600 + mi * 60 + s) - c :=
    timeDate_fixed_valid c y m d h mi s hm1 hm2 hh1 hh2 hmi1 hmi2 hs1 hs2
  have hcd : absGetCivil (fixedLoc c) (timeDate (fixedLoc c) y m d h mi s) =
      ⟨y, m, d, h, mi, s⟩ := by
    rw [hnow]
    exact absGetCivil_fixed c y m d h mi s hm1 hm2 hd1 hd2 hh1 hh2 hmi1 hmi2 hs1 hs2
  have hthis := helperGetMonthlyDate_fixed c y m td sh sm hsh1 hsh2 hsm1 hsm2
  have hprev := helperGetMonthlyDate_fixed c y (m - 1) td sh sm hsh1 hsh2 hsm1 hsm2
  obtain ⟨hPm1, hPm2, _⟩ := normYM_bounds y (m - 1)
  obtain ⟨hTm1, hTm2, _⟩ := normYM_bounds y m
  obtain ⟨hdP1, hdP2⟩ := daysInMonth_bounds (normYM y (m - 1)).1 (normYM y (m - 1)).2
  obtain ⟨hdT1, hdT2⟩ := daysInMonth_bounds (normYM y m).1 (normYM y m).2
  unfold monthlyEvaluate at hshould ⊢
  rw [if_neg (show ¬ ¬ ((⟨true, r, rt, tz, st, td, fixedLoc c, sh, sm⟩ :
      SnapshotPolicyMonthly).enabled = true) from fun hn => hn rfl)] at hshould ⊢
  simp only [hcd] at hshould ⊢
  by_cases hA : timeDate (fixedLoc c) y m d h mi s <
      helperGetMonthlyDate (fixedLoc c) y m td sh sm
  · simp only [if_pos hA] at hshould ⊢
    set R := helperEvaluateWindow (timeDate (fixedLoc c) y m d h mi s)
      (helperGetMonthlyDate (fixedLoc c) y (m - 1) td sh sm)
      (helperGetMonthlyDate (fixedLoc c) y m td sh sm -
        helperGetMonthlyDate (fixedLoc c) y (m - 1) td sh sm) ls with hRd
    by_cases hres : R.shouldSnapshot = true
    · rw [if_neg (not_not_intro hres)] at hshould ⊢
      have hl2 := daysFromCivil_linear2 (normYM y (m - 1)).1 (normYM y (m - 1)).2
        (min td (daysInMonth (normYM y (m - 1)).1 (normYM y (m - 1)).2))
        (daysInMonth (normYM y (m - 1)).1 (normYM y (m - 1)).2)
      have hl3 := daysFromCivil_prev_month y m hm1 hm2
      have hl4 := daysFromCivil_linear2 y m d 0
      have hnoshift : ¬ (timeDate (fixedLoc c) y m d h mi s <
          helperGetMonthlyDate (fixedLoc c) y (m - 1) td sh sm) := by
        rw [hnow, hprev]
        omega
      have hwin := helperEvaluateWindow_window (timeDate (fixedLoc c) y m d h mi s)
        (helperGetMonthlyDate (fixedLoc c) y (m - 1) td sh sm)
        (helperGetMonthlyDate (fixedLoc c) y m td sh sm -
          helperGetMonthlyDate (fixedLoc c) y (m - 1) td sh sm) ls
      rw [if_neg hnoshift] at hwin
      rw [← hRd] at hwin
      have hst : R.window.startTime =
          helperGetMonthlyDate (fixedLoc c) y (m - 1) td sh sm := by rw [hwin]
      dsimp only
      rw [hst, hprev, expiry_addDate_fixed c (normYM y (m - 1)).1 (normYM y (m - 1)).2
        (min td (daysInMonth (normYM y (m - 1)).1 (normYM y (m - 1)).2)) sh sm 0 r
        hPm1 hPm2 (by omega) (min_le_right td _) hsh1 hsh2 hsm1 hsm2
        (by norm_num) (by norm_num)]
      exact ⟨rfl, by omega⟩
    · rw [if_pos hres] at hshould
      exact absurd hshould hres
  · simp only [if_neg hA] at hshould ⊢
    set R := helperEvaluateWindow (timeDate (fixedLoc c) y m d h mi s)
      (helperGetMonthlyDate (fixedLoc c) y m td sh sm)
      (helperGetMonthlyDate (fixedLoc c) y (m + 1) td sh sm -
        helperGetMonthlyDate (fixedLoc c) y m td sh sm) ls with hRd
    by_cases hres : R.shouldSnapshot = true
    · rw [if_neg (not_not_intro hres)] at hshould ⊢
      have hwin := helperEvaluateWindow_window (timeDate (fixedLoc c) y m d h mi s)
        (helperGetMonthlyDate (fixedLoc c) y m td sh sm)
        (helperGetMonthlyDate (fixedLoc c) y (m + 1) td sh sm -
          helperGetMonthlyDate (fixedLoc c) y m td sh sm) ls
      rw [if_neg hA] at hwin
      rw [← hRd] at hwin
      have hst : R.window.startTime =
          helperGetMonthlyDate (fixedLoc c) y m td sh sm := by rw [hwin]
      dsimp only
      rw [hst, hthis, expiry_addDate_fixed c (normYM y m).1 (normYM y m).2
        (min td (daysInMonth (normYM y m).1 (normYM y m).2)) sh sm 0 r
        hTm1 hTm2 (by omega) (min_le_right td _) hsh1 hsh2 hsm1 hsm2
        (by norm_num) (by norm_num)]
      exact ⟨rfl, by omega⟩
    · rw [if_pos hres] at hshould
      exact absurd hshould hres

/-- Expiry invariant of the express evaluation in a fixed-offset zone: on
a take, the expiry is the window start plus retention days of 86400
seconds. -/
theorem expressEvaluate_expiry (c y m d h mi s r iv : Int) (rt tz : String)
    (ls : LastSnapshotInfo)
    (hm1 : 1 ≤ m) (hm2 : m ≤ 12) (hd1 : 1 ≤ d) (hd2 : d ≤ daysInMonth y m)
    (hh1 : 0 ≤ h) (hh2 : h < 24) (hmi1 : 0 ≤ mi) (hmi2 : mi < 60)
    (hs1 : 0 ≤ s) (hs2 : s < 60)
    (hr : 1 ≤ r) (hiv : 0 < iv)
    (hshould : (expressEvaluate ⟨true, iv, r, rt, tz, fixedLoc c, 0, 0⟩
        (timeDate (fixedLoc c) y m d h mi s) ls).shouldSnapshot = true) :
    (expressEvaluate ⟨true, iv, r, rt, tz, fixedLoc c, 0, 0⟩
        (timeDate (fixedLoc c) y m d h mi s) ls).metadata.expiryDate =
      (expressEvaluate ⟨true, iv, r, rt, tz, fixedLoc c, 0, 0⟩
        (timeDate (fixedLoc c) y m d h mi s) ls).window.startTime + r * 86400 ∧
    (expressEvaluate ⟨true, iv, r, rt, tz, fixedLoc c, 0, 0⟩
        (timeDate (fixedLoc c) y m d h mi s) ls).window.startTime <
      (expressEvaluate ⟨true, iv, r, rt, tz, fixedLoc c, 0, 0⟩
        (timeDate (fixedLoc c) y m d h mi s) ls).metadata.expiryDate := by
  have hnow : timeDate (fixedLoc c) y m d h mi s =
      daysFromCivil y m d * 86400 + (h * 3600 + mi * 60 + s) - c :=
    timeDate_fixed_valid c y m d h mi s hm1 hm2 hh1 hh2 hmi1 hmi2 hs1 hs2
  have hcd : absGetCivil (fixedLoc c) (timeDate (fixedLoc c) y m d h mi s) =
      ⟨y, m, d, h, mi, s⟩ := by
    rw [hnow]
    exact absGetCivil_fixed c y m d h mi s hm1 hm2 hd1 hd2 hh1 hh2 hmi1 hmi2 hs1 hs2
  have hmid : timeDate (fixedLoc c) y m d 0 0 0 = daysFromCivil y m d * 86400 - c := by
    rw [timeDate_fixed_valid c y m d 0 0 0 hm1 hm2 (by norm_num) (by norm_num)
      (by norm_num) (by norm_num) (by norm_num) (by norm_num)]
    ring
  unfold expressEvaluate at hshould ⊢
  rw [if_neg (show ¬ ¬ ((⟨true, iv, r, rt, tz, fixedLoc c, 0, 0⟩ :
      SnapshotPolicyExpress).enabled = true) from fun hn => hn rfl)] at hshould ⊢
  simp only [timeHour, hcd, hmid] at hshould ⊢
  set slot := h / iv * iv with hslot_def
  have hslot := slot_le_self h iv hh1 hiv
  rw [← hslot_def] at hslot
  set W := daysFromCivil y m d * 86400 - c + slot * 3600 with hW_def
  set R := helperEvaluateWindow (timeDate (fixedLoc c) y m d h mi s) W (iv * 3600) ls
    with hR_def
  by_cases hres : R.shouldSnapshot = true
  · rw [if_neg (not_not_intro hres)] at hshould ⊢
    have hnotlt : ¬ (timeDate (fixedLoc c) y m d h mi s < W) := by
      rw [hnow, hW_def]
      have h2 := hslot.2
      omega
    have hwin := helperEvaluateWindow_window (timeDate (fixedLoc c) y m d h mi s)
      W (iv * 3600) ls
    rw [if_neg hnotlt] at hwin
    rw [← hR_def] at hwin
    have hst : R.window.startTime = W := by rw [hwin]
    have hWform : W = daysFromCivil y m d * 86400 + (slot * 3600 + 0 * 60 + 0) - c := by
      rw [hW_def]; ring
    dsimp only
    rw [hst, hWform, expiry_addDate_fixed c y m d slot 0 0 r hm1 hm2 hd1 hd2
      hslot.1 (by omega) (by norm_num) (by norm_num) (by norm_num) (by norm_num)]
    exact ⟨rfl, by omega⟩
  · rw [if_pos hres] at hshould
    exact absurd hshould hres

/-- Claim C2 (amended): for every enabled policy kind — daily, weekly,
monthly and express — evaluated in a fixed-offset zone at any civil
reference instant, whenever the evaluation decides to take a snapshot the
emitted metadata's expiry date is exactly the window start advanced by
`retentionDays × 24h` (86400-second days), and in particular lies
strictly after the window start.  In a zone with a DST transition the
`× 24h` reading fails (see the counterexample): `AddDate` is
calendar-day arithmetic. -/
theorem claim_C2_expiry_fixed_offset (c y m d h mi s iv sh sm w td r : Int)
    (rt tz st dw : String) (ls : LastSnapshotInfo)
    (hm1 : 1 ≤ m) (hm2 : m ≤ 12) (hd1 : 1 ≤ d) (hd2 : d ≤ daysInMonth y m)
    (hh1 : 0 ≤ h) (hh2 : h < 24) (hmi1 : 0 ≤ mi) (hmi2 : mi < 60)
    (hs1 : 0 ≤ s) (hs2 : s < 60)
    (hiv : 0 < iv) (hsh1 : 0 ≤ sh) (hsh2 : sh < 24) (hsm1 : 0 ≤ sm) (hsm2 : sm < 60)
    (hw1 : 0 ≤ w) (hw2 : w ≤ 6) (htd : 1 ≤ td) (hr : 1 ≤ r) :
    ((dailyEvaluate ⟨true, r, rt, tz, st, fixedLoc c, sh, sm⟩
        (timeDate (fixedLoc c) y m d h mi s) ls).shouldSnapshot = true →
      (dailyEvaluate ⟨true, r, rt, tz, st, fixedLoc c, sh, sm⟩
          (timeDate (fixedLoc c) y m d h mi s) ls).metadata.expiryDate =
        (dailyEvaluate ⟨true, r, rt, tz, st, fixedLoc c, sh, sm⟩
          (timeDate (fixedLoc c) y m d h mi s) ls).window.startTime + r * 86400 ∧
      (dailyEvaluate ⟨true, r, rt, tz, st, fixedLoc c, sh, sm⟩
          (timeDate (fixedLoc c) y m d h mi s) ls).window.startTime <
        (dailyEvaluate ⟨true, r, rt, tz, st, fixedLoc c, sh, sm⟩
          (timeDate (fixedLoc c) y m d h mi s) ls).metadata.expiryDate) ∧
    ((weeklyEvaluate ⟨true, r, rt, tz, st, dw, fixedLoc c, sh, sm, w⟩
        (timeDate (fixedLoc c) y m d h mi s) ls).shouldSnapshot = true →
      (weeklyEvaluate ⟨true, r, rt, tz, st, dw, fixedLoc c, sh, sm, w⟩
          (timeDate (fixedLoc c) y m d h mi s) ls).metadata.expiryDate =
        (weeklyEvaluate ⟨true, r, rt, tz, st, dw, fixedLoc c, sh, sm, w⟩
          (timeDate (fixedLoc c) y m d h mi s) ls).window.startTime + r * 86400 ∧
      (weeklyEvaluate ⟨true, r, rt, tz, st, dw, fixedLoc c, sh, sm, w⟩
          (timeDate (fixedLoc c) y m d h mi s) ls).window.startTime <
        (weeklyEvaluate ⟨true, r, rt, tz, st, dw, fixedLoc c, sh, sm, w⟩
          (timeDate (fixedLoc c) y m d h mi s) ls).metadata.expiryDate) ∧
    ((monthlyEvaluate ⟨true, r, rt, tz, st, td, fixedLoc c, sh, sm⟩
        (timeDate (fixedLoc c) y m d h mi s) ls).shouldSnapshot = true →
      (monthlyEvaluate ⟨true, r, rt, tz, st, td, fixedLoc c, sh, sm⟩
          (timeDate (fixedLoc c) y m d h mi s) ls).metadata.expiryDate =
        (monthlyEvaluate ⟨true, r, rt, tz, st, td, fixedLoc c, sh, sm⟩
          (timeDate (fixedLoc c) y m d h mi s) ls).window.startTime + r * 86400 ∧
      (monthlyEvaluate ⟨true, r, rt, tz, st, td, fixedLoc c, sh, sm⟩
          (timeDate (fixedLoc c) y m d h mi s) ls).window.startTime <
        (monthlyEvaluate ⟨true, r, rt, tz, st, td, fixedLoc c, sh, sm⟩
          (timeDate (fixedLoc c) y m d h mi s) ls).metadata.expiryDate) ∧
    ((expressEvaluate ⟨true, iv, r, rt, tz, fixedLoc c, 0, 0⟩
        (timeDate (fixedLoc c) y m d h mi s) ls).shouldSnapshot = true →
      (expressEvaluate ⟨true, iv, r, rt, tz, fixedLoc c, 0, 0⟩
          (timeDate (fixedLoc c) y m d h mi s) ls).metadata.expiryDate =
        (expressEvaluate ⟨true, iv, r, rt, tz, fixedLoc c, 0, 0⟩
          (timeDate (fixedLoc c) y m d h mi s) ls).window.startTime + r * 86400 ∧
      (expressEvaluate ⟨true, iv, r, rt, tz, fixedLoc c, 0, 0⟩
          (timeDate (fixedLoc c) y m d h mi s) ls).window.startTime <
        (expressEvaluate ⟨true, iv, r, rt, tz, fixedLoc c, 0, 0⟩
          (timeDate (fixedLoc c) y m d h mi s) ls).metadata.expiryDate) :=
  ⟨fun hs0 => dailyEvaluate_expiry c y m d h mi s sh sm r rt tz st ls
      hm1 hm2 hd1 hd2 hh1 hh2 hmi1 hmi2 hs1 hs2 hsh1 hsh2 hsm1 hsm2 hr hs0,
   fun hs0 => weeklyEvaluate_expiry c y m d h mi s sh sm w r rt tz st dw ls
      hm1 hm2 hd1 hd2 hh1 hh2 hmi1 hmi2 hs1 hs2 hsh1 hsh2 hsm1 hsm2 hw1 hw2 hr hs0,
   fun hs0 => monthlyEvaluate_expiry c y m d h mi s sh sm td r rt tz st ls
      hm1 hm2 hd1 hd2 hh1 hh2 hmi1 hmi2 hs1 hs2 hsh1 hsh2 hsm1 hsm2 htd hr hs0,
   fun hs0 => expressEvaluate_expiry c y m d h mi s r iv rt tz ls
      hm1 hm2 hd1 hd2 hh1 hh2 hmi1 hmi2 hs1 hs2 hr hiv hs0⟩

/-- Witness for claim C2 (amended) at 2025-06-15 14:30:05 UTC (a Sunday):
all four policy kinds fire a take at this instant with their stated
parameters, and each emitted expiry is the respective window start plus
two 86400-second days. -/
theorem claim_C2_expiry_fixed_offset_witness :
    ((dailyEvaluate ⟨true, 2, "", "UTC", "14:00", fixedLoc 0, 14, 0⟩
        (timeDate (fixedLoc 0) 2025 6 15 14 30 5) ⟨goZeroTime, "", "", []⟩).shouldSnapshot = true ∧
      (dailyEvaluate ⟨true, 2, "", "UTC", "14:00", fixedLoc 0, 14, 0⟩
          (timeDate (fixedLoc 0) 2025 6 15 14 30 5) ⟨goZeroTime, "", "", []⟩).metadata.expiryDate =
        (dailyEvaluate ⟨true, 2, "", "UTC", "14:00", fixedLoc 0, 14, 0⟩
          (timeDate (fixedLoc 0) 2025 6 15 14 30 5) ⟨goZeroTime, "", "", []⟩).window.startTime
          + 2 * 86400) ∧
    ((weeklyEvaluate ⟨true, 2, "", "UTC", "14:00", "sunday", fixedLoc 0, 14, 0, 0⟩
        (timeDate (fixedLoc 0) 2025 6 15 14 30 5) ⟨goZeroTime, "", "", []⟩).shouldSnapshot = true ∧
      (weeklyEvaluate ⟨true, 2, "", "UTC", "14:00", "sunday", fixedLoc 0, 14, 0, 0⟩
          (timeDate (fixedLoc 0) 2025 6 15 14 30 5) ⟨goZeroTime, "", "", []⟩).metadata.expiryDate =
        (weeklyEvaluate ⟨true, 2, "", "UTC", "14:00", "sunday", fixedLoc 0, 14, 0, 0⟩
          (timeDate (fixedLoc 0) 2025 6 15 14 30 5) ⟨goZeroTime, "", "", []⟩).window.startTime
          + 2 * 86400) ∧
    ((monthlyEvaluate ⟨true, 2, "", "UTC", "14:00", 15, fixedLoc 0, 14, 0⟩
        (timeDate (fixedLoc 0) 2025 6 15 14 30 5) ⟨goZeroTime, "", "", []⟩).shouldSnapshot = true ∧
      (monthlyEvaluate ⟨true, 2, "", "UTC", "14:00", 15, fixedLoc 0, 14, 0⟩
          (timeDate (fixedLoc 0) 2025 6 15 14 30 5) ⟨goZeroTime, "", "", []⟩).metadata.expiryDate =
        (monthlyEvaluate ⟨true, 2, "", "UTC", "14:00", 15, fixedLoc 0, 14, 0⟩
          (timeDate (fixedLoc 0) 2025 6 15 14 30 5) ⟨goZeroTime, "", "", []⟩).window.startTime
          + 2 * 86400) ∧
    ((expressEvaluate ⟨true, 6, 2, "", "UTC", fixedLoc 0, 0, 0⟩
        (timeDate (fixedLoc 0) 2025 6 15 14 30 5) ⟨goZeroTime, "", "", []⟩).shouldSnapshot = true ∧
      (expressEvaluate ⟨true, 6, 2, "", "UTC", fixedLoc 0, 0, 0⟩
          (timeDate (fixedLoc 0) 2025 6 15 14 30 5) ⟨goZeroTime, "", "", []⟩).metadata.expiryDate =
        (expressEvaluate ⟨true, 6, 2, "", "UTC", fixedLoc 0, 0, 0⟩
          (timeDate (fixedLoc 0) 2025 6 15 14 30 5) ⟨goZeroTime, "", "", []⟩).window.startTime
          + 2 * 86400) := by
  have H := claim_C2_expiry_fixed_offset 0 2025 6 15 14 30 5 6 14 0 0 15 2
    "" "UTC" "14:00" "sunday" ⟨goZeroTime, "", "", []⟩
    (by norm_num) (by norm_num) (by norm_num) (by decide) (by norm_num) (by norm_num)
    (by norm_num) (by norm_num) (by norm_num) (by norm_num) (by norm_num) (by norm_num)
    (by norm_num) (by norm_num) (by norm_num) (by norm_num) (by norm_num) (by norm_num)
    (by norm_num)
  exact ⟨⟨by rfl, (H.1 (by rfl)).1⟩, ⟨by rfl, (H.2.1 (by rfl)).1⟩,
    ⟨by rfl, (H.2.2.1 (by rfl)).1⟩, ⟨by rfl, (H.2.2.2 (by rfl)).1⟩⟩
